import Mathlib

/-!
# RC verbs interface: progress engine, capability query, construction

A shallow embedding of `src/uct/ib/rc/verbs/rc_verbs_iface.c`.

* The interface object is a record of the fields the code reads and writes.
* Calls that leave the file (verbs library, memory pools, callbacks) are
  answered by an environment `Env`; every such call is appended to a trace,
  and the environment sees the trace so far, so its answers may differ from
  call to call.
* The active-message callback and the transmit-completion processing are
  recorded with their arguments; what they go on to do is outside the file and
  is not part of the state here.
* `ucs_fatal` aborts the process: it is the outcome `Outcome.fatal`.  A failed
  `ucs_assert` is treated the same way.
* `unsigned` values wrap modulo `2 ^ 32`, `size_t` values modulo `2 ^ 64`.
* Statistics counters, logging, instrumentation and the Valgrind annotations
  have no effect on the state and are left out.
-/

namespace RcVerbs

/-! ## Machine arithmetic -/

/-- Number of values of the C type `unsigned`. -/
def UINT_RANGE : Nat := 2 ^ 32

/-- Number of values of the C type `size_t`. -/
def SIZE_RANGE : Nat := 2 ^ 64

/-- Subtraction `a - b` on `unsigned` operands. -/
def unsigned_sub (a b : Nat) : Nat := (a + UINT_RANGE - b % UINT_RANGE) % UINT_RANGE

/-- Addition `a + b` on `unsigned` operands. -/
def unsigned_add (a b : Nat) : Nat := (a + b) % UINT_RANGE

/-- Subtraction `a - b` on `size_t` operands. -/
def size_t_sub (a b : Nat) : Nat := (a + SIZE_RANGE - b % SIZE_RANGE) % SIZE_RANGE

/-! ## Data model -/

/-- The values of `ucs_status_t` the file names; any other code is `other`. -/
inductive ucs_status_t
  | UCS_OK
  | UCS_ERR_NO_PROGRESS
  | UCS_ERR_NO_MEMORY
  | other (code : Int)
  deriving DecidableEq

/-- A work completion, `struct ibv_wc`, with the members the file reads. -/
structure ibv_wc where
  wr_id : Nat
  status : Nat
  byte_len : Nat
  qp_num : Nat
  deriving DecidableEq

/-- The success value of `enum ibv_wc_status`. -/
def IBV_WC_SUCCESS : Nat := 0

/-- Extended atomics parameters, `struct ibv_exp_ext_atomics_params`. -/
structure ibv_exp_ext_atomics_params where
  log_atomic_arg_sizes : Nat
  log_max_atomic_inline : Nat
  deriving DecidableEq

/-- Device attributes as the file sees them.  The three booleans are the values
of the macros `IBV_EXP_HAVE_ATOMIC_HCA`, `IBV_EXP_HAVE_ATOMIC_GLOB` and
`IBV_EXP_HAVE_ATOMIC_HCA_REPLY_BE` on the attributes (the macros are defined in a
header that is not among the sources).  `ext_atom` is `none` in a build without
`HAVE_IB_EXT_ATOMICS`, where the code does not read that member. -/
structure ibv_exp_device_attr where
  have_atomic_hca : Bool
  have_atomic_glob : Bool
  have_atomic_hca_reply_be : Bool
  ext_atom : Option ibv_exp_ext_atomics_params
  deriving DecidableEq

/-- The four atomic completion handlers the constructor chooses from. -/
inductive atomic_handler
  | uct_rc_ep_atomic_handler_32_be0
  | uct_rc_ep_atomic_handler_64_be0
  | uct_rc_ep_atomic_handler_32_be1
  | uct_rc_ep_atomic_handler_64_be1
  deriving DecidableEq

/-- An endpoint, `uct_rc_verbs_ep_t`: the queue-pair number it is found by,
`super.available` and `tx.completion_count`.  The two counters are declared in
headers that are not among the sources; they are natural numbers here. -/
structure uct_rc_verbs_ep_t where
  qp_num : Nat
  available : Nat
  completion_count : Nat
  deriving DecidableEq

/-- The interface, `uct_rc_verbs_iface_t`, with the members the file uses.
`rx_available` is `super.rx.available`, an `unsigned` counter; `rx_max_batch`,
`rx_max_poll`, `tx_max_poll` and `seg_size` are members of `super.super.config`;
`tx_cq_available` is `super.tx.cq_available`; `eps` holds the endpoints that
`uct_rc_iface_lookup_ep` searches; `max_msg_sz` is the port attribute of that
name.  `atomic32_handler` and `atomic64_handler` are `none` while nothing has
been assigned to them. -/
structure uct_rc_verbs_iface_t where
  rx_available : Nat
  rx_max_batch : Nat
  rx_max_poll : Nat
  tx_max_poll : Nat
  tx_cq_available : Nat
  eps : List uct_rc_verbs_ep_t
  dev_attr : ibv_exp_device_attr
  max_inline : Nat
  short_desc_size : Nat
  seg_size : Nat
  max_msg_sz : Nat
  atomic32_handler : Option atomic_handler
  atomic64_handler : Option atomic_handler
  deriving DecidableEq

/-- The completion queue a poll is made on. -/
inductive cq_kind
  | send_cq
  | recv_cq
  deriving DecidableEq

/-- One call that leaves the file, with its arguments and, where it has one,
its result.  The two callbacks receive the interface; the event keeps the
interface as it was at the call. -/
inductive Event
  | ibv_poll_cq (cq : cq_kind) (num_entries : Nat) (ret : Int)
  | uct_ib_iface_prepare_rx_wrs (max : Nat) (count : Nat)
  | ibv_post_srq_recv (count : Nat) (ret : Int)
  | uct_ib_iface_invoke_am (iface : uct_rc_verbs_iface_t) (am_id : Nat) (data : Nat)
      (length : Nat) (desc : Nat)
  | uct_rc_ep_process_tx_completion (iface : uct_rc_verbs_iface_t) (qp_num : Nat) (sn : Nat)
  | uct_rc_iface_qp_create (status : ucs_status_t) (max_inline_data : Nat)
  | ibv_destroy_qp
  | uct_iface_mpool_init (status : ucs_status_t)
  | ucs_mpool_cleanup
  deriving DecidableEq

/-- The interface together with the calls made so far. -/
structure World where
  iface : uct_rc_verbs_iface_t
  trace : List Event
  deriving DecidableEq

/-- The place where `ucs_fatal` (or a failed `ucs_assert`) stopped the process. -/
inductive fatal_kind
  | post_srq_recv_failed
  | poll_send_cq_failed
  | send_completion_error
  | ep_lookup_failed
  | poll_recv_cq_failed
  | recv_completion_error
  deriving DecidableEq

/-- How a call ends: it returns a value, or the process is aborted. -/
inductive Outcome (α : Type)
  | ret (v : α) (w : World)
  | fatal (k : fatal_kind) (w : World)
  deriving DecidableEq

/-- The answers of everything outside the file.  Each function that stands for a
call receives the trace so far.

* `ibv_poll_cq cq trace num_entries` gives the return value and the contents of
  the array `wc` after the call.
* `uct_ib_iface_prepare_rx_wrs trace max` is the number of descriptors the batch
  builder prepared.
* `ibv_post_srq_recv trace` is the return value of the submission.
* `uct_ib_iface_recv_desc_hdr desc` is the address of the header of a descriptor,
  `hdr_am_id hdr` is the member `am_id` of the header at that address, and
  `sizeof_uct_rc_hdr_t` is the size of the header type.
* `UCT_RC_MAX_ATOMIC_SIZE` is the constant of that name. -/
structure Env where
  ibv_poll_cq : cq_kind → List Event → Nat → Int × (Nat → ibv_wc)
  uct_ib_iface_prepare_rx_wrs : List Event → Nat → Nat
  ibv_post_srq_recv : List Event → Int
  uct_ib_iface_recv_desc_hdr : Nat → Nat
  hdr_am_id : Nat → Nat
  sizeof_uct_rc_hdr_t : Nat
  uct_rc_iface_qp_create : List Event → ucs_status_t × Nat
  uct_iface_mpool_init : List Event → ucs_status_t
  UCT_RC_MAX_ATOMIC_SIZE : Nat

/-- Append one event to the trace. -/
def World.emit (w : World) (e : Event) : World :=
  { w with trace := w.trace ++ [e] }

/-! ## Receive replenishment -/

/-- The function `uct_rc_verbs_iface_post_recv_always`: have the batch builder
prepare up to `max` descriptors, submit them, and lower `rx.available` by the
number prepared. -/
def uct_rc_verbs_iface_post_recv_always (env : Env) (w : World) (max : Nat) : Outcome Nat :=
  let count := env.uct_ib_iface_prepare_rx_wrs w.trace max
  let w1 := w.emit (Event.uct_ib_iface_prepare_rx_wrs max count)
  if count = 0 then
    Outcome.ret 0 w1
  else
    let ret := env.ibv_post_srq_recv w1.trace
    let w2 := w1.emit (Event.ibv_post_srq_recv count ret)
    if ret ≠ 0 then
      Outcome.fatal fatal_kind.post_srq_recv_failed w2
    else
      Outcome.ret count
        { w2 with iface := { w2.iface with
            rx_available := unsigned_sub w2.iface.rx_available count } }

/-- The number of descriptors `uct_rc_verbs_iface_post_recv` asks for, when it
asks at all: the whole counter below a batch, one batch otherwise. -/
def post_recv_request (iface : uct_rc_verbs_iface_t) : Nat :=
  if iface.rx_available < iface.rx_max_batch then iface.rx_available else iface.rx_max_batch

/-- The function `uct_rc_verbs_iface_post_recv`. -/
def uct_rc_verbs_iface_post_recv (env : Env) (w : World) (fill : Bool) : Outcome Nat :=
  let batch := w.iface.rx_max_batch
  if w.iface.rx_available < batch then
    if !fill then
      Outcome.ret 0 w
    else
      uct_rc_verbs_iface_post_recv_always env w w.iface.rx_available
  else
    uct_rc_verbs_iface_post_recv_always env w batch

/-! ## Completion polling -/

/-- Modelled from the spec: `uct_rc_iface_lookup_ep` is declared in a header that
is not among the sources; the spec says the owning endpoint is looked up by
queue-pair number.  `none` stands for the null pointer. -/
def uct_rc_iface_lookup_ep (iface : uct_rc_verbs_iface_t) (qp_num : Nat) :
    Option uct_rc_verbs_ep_t :=
  iface.eps.find? (fun ep => ep.qp_num == qp_num)

/-- Write an endpoint back in the place of the first endpoint with its
queue-pair number (the code updates the endpoint through the pointer the lookup
returned). -/
def store_ep (eps : List uct_rc_verbs_ep_t) (ep : uct_rc_verbs_ep_t) : List uct_rc_verbs_ep_t :=
  match eps with
  | [] => []
  | e :: rest => if e.qp_num == ep.qp_num then ep :: rest else e :: store_ep rest ep

/-- The batch count a send completion stands for: `count = wc[i].wr_id + 1`,
stored in an `unsigned`. -/
def tx_batch_count (wc : ibv_wc) : Nat := (wc.wr_id + 1) % UINT_RANGE

/-- The body of the loop of `uct_rc_verbs_iface_poll_tx`, for one completion.
A lookup that finds no endpoint stops at `ucs_assert(ep != NULL)`. -/
def poll_tx_wc (w : World) (wc : ibv_wc) : Outcome Unit :=
  if wc.status ≠ IBV_WC_SUCCESS then
    Outcome.fatal fatal_kind.send_completion_error w
  else
    match uct_rc_iface_lookup_ep w.iface wc.qp_num with
    | none => Outcome.fatal fatal_kind.ep_lookup_failed w
    | some ep =>
      let count := tx_batch_count wc
      let ep1 : uct_rc_verbs_ep_t :=
        { ep with available := ep.available + count,
                  completion_count := ep.completion_count + count }
      let iface1 : uct_rc_verbs_iface_t :=
        { w.iface with eps := store_ep w.iface.eps ep1,
                       tx_cq_available := w.iface.tx_cq_available + 1 }
      Outcome.ret ()
        { iface := iface1,
          trace := w.trace ++
            [Event.uct_rc_ep_process_tx_completion iface1 wc.qp_num ep1.completion_count] }

/-- The loop of `uct_rc_verbs_iface_poll_tx` over the completions polled, in
array order. -/
def poll_tx_loop (w : World) (wcs : List ibv_wc) : Outcome Unit :=
  match wcs with
  | [] => Outcome.ret () w
  | wc :: rest =>
    match poll_tx_wc w wc with
    | Outcome.fatal k w1 => Outcome.fatal k w1
    | Outcome.ret _ w1 => poll_tx_loop w1 rest

/-- The first `n` entries of the array `wc`. -/
def wc_first (wc : Nat → ibv_wc) (n : Nat) : List ibv_wc := (List.range n).map wc

/-- The function `uct_rc_verbs_iface_poll_tx`. -/
def uct_rc_verbs_iface_poll_tx (env : Env) (w : World) : Outcome Unit :=
  let num_wcs := w.iface.tx_max_poll
  let r := env.ibv_poll_cq cq_kind.send_cq w.trace num_wcs
  let w1 := w.emit (Event.ibv_poll_cq cq_kind.send_cq num_wcs r.1)
  if r.1 ≤ 0 then
    if r.1 < 0 then
      Outcome.fatal fatal_kind.poll_send_cq_failed w1
    else
      Outcome.ret () w1
  else
    poll_tx_loop w1 (wc_first r.2 r.1.toNat)

/-- The call of the active-message callback that the loop of
`uct_rc_verbs_iface_poll_rx` makes for one completion. -/
def am_event (env : Env) (iface : uct_rc_verbs_iface_t) (wc : ibv_wc) : Event :=
  let desc := wc.wr_id
  let hdr := env.uct_ib_iface_recv_desc_hdr desc
  Event.uct_ib_iface_invoke_am iface (env.hdr_am_id hdr) (hdr + env.sizeof_uct_rc_hdr_t)
    (size_t_sub wc.byte_len env.sizeof_uct_rc_hdr_t) desc

/-- The body of the loop of `uct_rc_verbs_iface_poll_rx`, for one completion. -/
def poll_rx_wc (env : Env) (w : World) (wc : ibv_wc) : Outcome Unit :=
  if wc.status ≠ IBV_WC_SUCCESS then
    Outcome.fatal fatal_kind.recv_completion_error w
  else
    Outcome.ret () (w.emit (am_event env w.iface wc))

/-- The loop of `uct_rc_verbs_iface_poll_rx` over the completions polled, in
array order. -/
def poll_rx_loop (env : Env) (w : World) (wcs : List ibv_wc) : Outcome Unit :=
  match wcs with
  | [] => Outcome.ret () w
  | wc :: rest =>
    match poll_rx_wc env w wc with
    | Outcome.fatal k w1 => Outcome.fatal k w1
    | Outcome.ret _ w1 => poll_rx_loop env w1 rest

/-- The last two statements of `uct_rc_verbs_iface_poll_rx`: the replenishment
with `fill = 0`, whose result is dropped, and the return of `status`. -/
def poll_rx_finish (env : Env) (w : World) (status : ucs_status_t) : Outcome ucs_status_t :=
  match uct_rc_verbs_iface_post_recv env w false with
  | Outcome.fatal k w1 => Outcome.fatal k w1
  | Outcome.ret _ w1 => Outcome.ret status w1

/-- The function `uct_rc_verbs_iface_poll_rx`. -/
def uct_rc_verbs_iface_poll_rx (env : Env) (w : World) : Outcome ucs_status_t :=
  let num_wcs := w.iface.rx_max_poll
  let r := env.ibv_poll_cq cq_kind.recv_cq w.trace num_wcs
  let w1 := w.emit (Event.ibv_poll_cq cq_kind.recv_cq num_wcs r.1)
  if 0 < r.1 then
    match poll_rx_loop env w1 (wc_first r.2 r.1.toNat) with
    | Outcome.fatal k w2 => Outcome.fatal k w2
    | Outcome.ret _ w2 =>
      poll_rx_finish env
        { w2 with iface := { w2.iface with
            rx_available := unsigned_add w2.iface.rx_available r.1.toNat } }
        ucs_status_t.UCS_OK
  else if r.1 = 0 then
    poll_rx_finish env w1 ucs_status_t.UCS_ERR_NO_PROGRESS
  else
    Outcome.fatal fatal_kind.poll_recv_cq_failed w1

/-- The function `uct_rc_verbs_iface_progress`. -/
def uct_rc_verbs_iface_progress (env : Env) (w : World) : Outcome Unit :=
  match uct_rc_verbs_iface_poll_rx env w with
  | Outcome.fatal k w1 => Outcome.fatal k w1
  | Outcome.ret status w1 =>
    if status = ucs_status_t.UCS_ERR_NO_PROGRESS then
      uct_rc_verbs_iface_poll_tx env w1
    else
      Outcome.ret () w1

/-! ## Capability query -/

/-- Halve `n` until it is below 2, at most `fuel` times, and count the halvings. -/
def ilog2_loop : Nat → Nat → Nat
  | 0, _ => 0
  | fuel + 1, n => if 2 ≤ n then ilog2_loop fuel (n / 2) + 1 else 0

/-- Modelled from the spec: `ucs_ilog2` is declared in `ucs/arch/bitops.h`, which
is not among the sources; it is the integer base-2 logarithm of its argument,
the index of its highest set bit. -/
def ucs_ilog2 (n : Nat) : Nat := ilog2_loop n n

/-- The function `uct_rc_verbs_is_ext_atomic_supported`. -/
def uct_rc_verbs_is_ext_atomic_supported (dev_attr : ibv_exp_device_attr)
    (atomic_size : Nat) : Bool :=
  match dev_attr.ext_atom with
  | some ext_atom =>
    decide (ext_atom.log_max_atomic_inline ≥ ucs_ilog2 atomic_size) &&
      decide (ext_atom.log_atomic_arg_sizes &&& atomic_size ≠ 0)
  | none => false

/-- Modelled from the spec: the `UCT_IFACE_FLAG_*` constants are declared in
`uct/api/uct.h`, which is not among the sources; the spec names the atomic
capability flags one by one, and `cap.flags` is the set of flags it holds.
`other` stands for every flag that is not an atomic one. -/
inductive uct_iface_flag
  | ATOMIC_ADD32
  | ATOMIC_FADD32
  | ATOMIC_SWAP32
  | ATOMIC_CSWAP32
  | ATOMIC_ADD64
  | ATOMIC_FADD64
  | ATOMIC_SWAP64
  | ATOMIC_CSWAP64
  | other (bit : Nat)
  deriving DecidableEq

/-- The members of `uct_iface_attr_t` the query writes, the overhead (a floating
point constant) left out. -/
structure uct_iface_attr_t where
  cap_flags : Finset uct_iface_flag
  put_max_short : Nat
  put_max_bcopy : Nat
  put_max_zcopy : Nat
  get_max_bcopy : Nat
  get_max_zcopy : Nat
  am_max_short : Nat
  am_max_bcopy : Nat
  am_max_zcopy : Nat
  am_max_hdr : Nat
  deriving DecidableEq

/-- The size of `uint32_t`. -/
def sizeof_uint32_t : Nat := 4

/-- The size of `uint64_t`. -/
def sizeof_uint64_t : Nat := 8

/-- The atomic flags `uct_rc_verbs_iface_query` joins to `cap.flags`
(the block under the comment "Atomics"). -/
def query_atomic_flags (dev_attr : ibv_exp_device_attr) : Finset uct_iface_flag :=
  if dev_attr.have_atomic_hca || dev_attr.have_atomic_glob ||
      dev_attr.have_atomic_hca_reply_be then
    let f0 : Finset uct_iface_flag :=
      {uct_iface_flag.ATOMIC_ADD64, uct_iface_flag.ATOMIC_FADD64, uct_iface_flag.ATOMIC_CSWAP64}
    let f1 : Finset uct_iface_flag :=
      if uct_rc_verbs_is_ext_atomic_supported dev_attr sizeof_uint32_t then
        f0 ∪ {uct_iface_flag.ATOMIC_ADD32, uct_iface_flag.ATOMIC_FADD32,
              uct_iface_flag.ATOMIC_SWAP32, uct_iface_flag.ATOMIC_CSWAP32}
      else f0
    if uct_rc_verbs_is_ext_atomic_supported dev_attr sizeof_uint64_t then
      f1 ∪ {uct_iface_flag.ATOMIC_SWAP64}
    else f1
  else
    ∅

/-- The function `uct_rc_verbs_iface_query`.  `base` is the report as
`uct_rc_iface_query` (not among the sources) left it. -/
def uct_rc_verbs_iface_query (env : Env) (iface : uct_rc_verbs_iface_t)
    (base : uct_iface_attr_t) : ucs_status_t × uct_iface_attr_t :=
  (ucs_status_t.UCS_OK,
   { cap_flags := base.cap_flags ∪ query_atomic_flags iface.dev_attr,
     put_max_short := iface.max_inline,
     put_max_bcopy := iface.seg_size,
     put_max_zcopy := iface.max_msg_sz,
     get_max_bcopy := iface.seg_size,
     get_max_zcopy := iface.max_msg_sz,
     am_max_short := size_t_sub iface.max_inline env.sizeof_uct_rc_hdr_t,
     am_max_bcopy := size_t_sub iface.seg_size env.sizeof_uct_rc_hdr_t,
     am_max_zcopy := size_t_sub iface.seg_size env.sizeof_uct_rc_hdr_t,
     am_max_hdr := size_t_sub iface.short_desc_size env.sizeof_uct_rc_hdr_t })

/-! ## Construction -/

/-- The block under the comment "Configuration" of the constructor: the short
descriptor size and the choice of the atomic handlers. -/
def init_config (env : Env) (max_am_hdr : Nat) (self : uct_rc_verbs_iface_t) :
    uct_rc_verbs_iface_t :=
  let am_hdr_size := max max_am_hdr env.sizeof_uct_rc_hdr_t
  let self1 := { self with short_desc_size := max env.UCT_RC_MAX_ATOMIC_SIZE am_hdr_size }
  let dev_attr := self1.dev_attr
  if dev_attr.have_atomic_hca || dev_attr.have_atomic_glob then
    { self1 with
        atomic32_handler := some atomic_handler.uct_rc_ep_atomic_handler_32_be0,
        atomic64_handler := some atomic_handler.uct_rc_ep_atomic_handler_64_be0 }
  else if dev_attr.have_atomic_hca_reply_be then
    { self1 with
        atomic32_handler := some atomic_handler.uct_rc_ep_atomic_handler_32_be1,
        atomic64_handler := some atomic_handler.uct_rc_ep_atomic_handler_64_be1 }
  else
    self1

/-- The loop at the end of the constructor that primes the receive queue, with
the two ways out of it: `return UCS_OK`, and the label `err_destroy_short_desc_mp`.
`fuel` bounds the number of iterations; `none` means it ran out. -/
def init_prime_rx (env : Env) : Nat → World → Option (Outcome ucs_status_t)
  | 0, _ => none
  | fuel + 1, w =>
    if 0 < w.iface.rx_available then
      match uct_rc_verbs_iface_post_recv env w true with
      | Outcome.fatal k w1 => some (Outcome.fatal k w1)
      | Outcome.ret n w1 =>
        if n = 0 then
          some (Outcome.ret ucs_status_t.UCS_ERR_NO_MEMORY (w1.emit Event.ucs_mpool_cleanup))
        else
          init_prime_rx env fuel w1
    else
      some (Outcome.ret ucs_status_t.UCS_OK w)

/-- The constructor `UCS_CLASS_INIT_FUNC(uct_rc_verbs_iface_t, ...)`, from the
point where the superclass constructor has succeeded and left `self` in `w`.
The inline work-request templates, which nothing else in the file reads, are
left out. -/
def uct_rc_verbs_iface_init (env : Env) (max_am_hdr : Nat) (fuel : Nat) (w : World) :
    Option (Outcome ucs_status_t) :=
  let w1 : World := { w with iface := init_config env max_am_hdr w.iface }
  let r := env.uct_rc_iface_qp_create w1.trace
  let w2 := w1.emit (Event.uct_rc_iface_qp_create r.1 r.2)
  if r.1 ≠ ucs_status_t.UCS_OK then
    some (Outcome.ret r.1 w2)
  else
    let w3 := w2.emit Event.ibv_destroy_qp
    let w4 : World := { w3 with iface := { w3.iface with max_inline := r.2 } }
    let st := env.uct_iface_mpool_init w4.trace
    let w5 := w4.emit (Event.uct_iface_mpool_init st)
    if st ≠ ucs_status_t.UCS_OK then
      some (Outcome.ret st w5)
    else
      init_prime_rx env fuel w5

/-- The destructor `UCS_CLASS_CLEANUP_FUNC(uct_rc_verbs_iface_t)`. -/
def uct_rc_verbs_iface_cleanup (w : World) : World :=
  w.emit Event.ucs_mpool_cleanup

/-! ## Notions used to state the properties -/

/-- The state an outcome ends in. -/
def Outcome.world {α : Type} : Outcome α → World
  | Outcome.ret _ w => w
  | Outcome.fatal _ w => w

/-- What the poll of the receive completion queue made by
`uct_rc_verbs_iface_poll_rx` in state `w` returns. -/
def rx_poll (env : Env) (w : World) : Int × (Nat → ibv_wc) :=
  env.ibv_poll_cq cq_kind.recv_cq w.trace w.iface.rx_max_poll

/-- The completions that poll returned: the first `ret` entries of the array. -/
def rx_completions (env : Env) (w : World) : List ibv_wc :=
  wc_first (rx_poll env w).2 (rx_poll env w).1.toNat

/-- The state in which `uct_rc_verbs_iface_poll_rx` reaches its replenishment when
the poll did not fail and every completion was successful: the poll and one
callback per completion are in the trace, and the counter has been raised by the
number of completions (only when there were any). -/
def rx_after_completions (env : Env) (w : World) : World :=
  if 0 < (rx_poll env w).1 then
    { iface := { w.iface with
        rx_available := unsigned_add w.iface.rx_available (rx_poll env w).1.toNat },
      trace := w.trace ++
        Event.ibv_poll_cq cq_kind.recv_cq w.iface.rx_max_poll (rx_poll env w).1 ::
          (rx_completions env w).map (am_event env w.iface) }
  else
    w.emit (Event.ibv_poll_cq cq_kind.recv_cq w.iface.rx_max_poll (rx_poll env w).1)

/-- Whether an event is a poll of the completion queue `cq`. -/
def is_poll (cq : cq_kind) : Event → Bool
  | Event.ibv_poll_cq c _ _ => decide (c = cq)
  | _ => false

/-- How many times the completion queue `cq` was polled in a trace. -/
def polls (cq : cq_kind) (t : List Event) : Nat := t.countP (is_poll cq)

/-- Whether an event is a call of the active-message callback. -/
def is_invoke_am : Event → Bool
  | Event.uct_ib_iface_invoke_am _ _ _ _ _ => true
  | _ => false

/-- Whether an event is one of the two calls a replenishment makes. -/
def is_replenish_event : Event → Bool
  | Event.uct_ib_iface_prepare_rx_wrs _ _ => true
  | Event.ibv_post_srq_recv _ _ => true
  | _ => false

/-! ## Concrete environments and states for the examples -/

/-- An environment whose pool backs at most `pool` descriptors for a request,
whose submissions return `post_ret`, and whose polls of the receive and the
send queue return `rx` and `tx`; headers are one byte long and sit 64 bytes into
the descriptor, where the active-message id 7 is stored. -/
def example_env (pool : Nat) (post_ret : Int) (rx tx : Int × (Nat → ibv_wc)) : Env :=
  { ibv_poll_cq := fun cq _ _ =>
      match cq with
      | cq_kind.recv_cq => rx
      | cq_kind.send_cq => tx,
    uct_ib_iface_prepare_rx_wrs := fun _ max => min max pool,
    ibv_post_srq_recv := fun _ => post_ret,
    uct_ib_iface_recv_desc_hdr := fun desc => desc + 64,
    hdr_am_id := fun _ => 7,
    sizeof_uct_rc_hdr_t := 1,
    uct_rc_iface_qp_create := fun _ => (ucs_status_t.UCS_OK, 128),
    uct_iface_mpool_init := fun _ => ucs_status_t.UCS_OK,
    UCT_RC_MAX_ATOMIC_SIZE := 8 }

/-- A poll that finds nothing. -/
def no_wc : Int × (Nat → ibv_wc) := (0, fun _ => ⟨0, 0, 0, 0⟩)

/-- Device attributes with the given atomic mechanisms and no extended atomics. -/
def example_dev (hca glob reply_be : Bool) : ibv_exp_device_attr :=
  { have_atomic_hca := hca, have_atomic_glob := glob,
    have_atomic_hca_reply_be := reply_be, ext_atom := none }

/-- An interface with receive-available counter `a`, batch size `b` and the
endpoints `eps`. -/
def example_iface (a b : Nat) (eps : List uct_rc_verbs_ep_t) : uct_rc_verbs_iface_t :=
  { rx_available := a, rx_max_batch := b, rx_max_poll := 16, tx_max_poll := 16,
    tx_cq_available := 0, eps := eps, dev_attr := example_dev false false false,
    max_inline := 0, short_desc_size := 0, seg_size := 8192, max_msg_sz := 1073741824,
    atomic32_handler := none, atomic64_handler := none }

/-- The state `example_iface a b eps` with an empty trace. -/
def example_world (a b : Nat) (eps : List uct_rc_verbs_ep_t) : World :=
  { iface := example_iface a b eps, trace := [] }

/-- A poll that finds two successful completions, of 9 and 1 bytes, for the
descriptors at 1000 and 2000. -/
def two_wc : Int × (Nat → ibv_wc) :=
  (2, fun i => if i = 0 then ⟨1000, 0, 9, 5⟩ else ⟨2000, 0, 1, 5⟩)

/-- A poll that finds one successful send completion with identifier 3 for
queue pair 5. -/
def one_tx_wc : Int × (Nat → ibv_wc) := (1, fun _ => ⟨3, 0, 0, 5⟩)

/-- A freshly allocated interface on the device `dev`, with receive-available
counter `a`, batch size `b` and an empty trace. -/
def example_world_on (dev : ibv_exp_device_attr) (a b : Nat) : World :=
  { iface := { example_iface a b [] with dev_attr := dev }, trace := [] }


/-! ## Arithmetic facts -/

theorem unsigned_sub_eq {a c : Nat} (h1 : a < UINT_RANGE) (h2 : c ≤ a) :
    unsigned_sub a c = a - c := by
  unfold unsigned_sub
  unfold UINT_RANGE at *
  norm_num at *
  omega

theorem unsigned_add_eq {a n : Nat} (h : a + n < UINT_RANGE) : unsigned_add a n = a + n := by
  unfold unsigned_add
  exact Nat.mod_eq_of_lt h

theorem size_t_sub_eq {a c : Nat} (h1 : a < SIZE_RANGE) (h2 : c ≤ a) :
    size_t_sub a c = a - c := by
  unfold size_t_sub
  unfold SIZE_RANGE at *
  norm_num at *
  omega

/-! ## Receive replenishment -/

theorem post_recv_always_zero (env : Env) (w : World) (max : Nat)
    (h : env.uct_ib_iface_prepare_rx_wrs w.trace max = 0) :
    uct_rc_verbs_iface_post_recv_always env w max =
      Outcome.ret 0 (w.emit (Event.uct_ib_iface_prepare_rx_wrs max 0)) := by
  simp [uct_rc_verbs_iface_post_recv_always, h]

theorem post_recv_always_fatal (env : Env) (w : World) (max : Nat)
    (h : env.uct_ib_iface_prepare_rx_wrs w.trace max ≠ 0)
    (hp : env.ibv_post_srq_recv (w.trace ++
      [Event.uct_ib_iface_prepare_rx_wrs max (env.uct_ib_iface_prepare_rx_wrs w.trace max)]) ≠ 0) :
    uct_rc_verbs_iface_post_recv_always env w max =
      Outcome.fatal fatal_kind.post_srq_recv_failed
        { iface := w.iface,
          trace := w.trace ++
            [Event.uct_ib_iface_prepare_rx_wrs max (env.uct_ib_iface_prepare_rx_wrs w.trace max),
             Event.ibv_post_srq_recv (env.uct_ib_iface_prepare_rx_wrs w.trace max)
               (env.ibv_post_srq_recv (w.trace ++ [Event.uct_ib_iface_prepare_rx_wrs max
                 (env.uct_ib_iface_prepare_rx_wrs w.trace max)]))] } := by
  simp [uct_rc_verbs_iface_post_recv_always, World.emit, h, hp]

theorem post_recv_always_posted (env : Env) (w : World) (max : Nat)
    (h : env.uct_ib_iface_prepare_rx_wrs w.trace max ≠ 0)
    (hp : env.ibv_post_srq_recv (w.trace ++
      [Event.uct_ib_iface_prepare_rx_wrs max (env.uct_ib_iface_prepare_rx_wrs w.trace max)]) = 0) :
    uct_rc_verbs_iface_post_recv_always env w max =
      Outcome.ret (env.uct_ib_iface_prepare_rx_wrs w.trace max)
        { iface :=
            { w.iface with
                rx_available := unsigned_sub w.iface.rx_available
                  (env.uct_ib_iface_prepare_rx_wrs w.trace max) },
          trace := w.trace ++
            [Event.uct_ib_iface_prepare_rx_wrs max (env.uct_ib_iface_prepare_rx_wrs w.trace max),
             Event.ibv_post_srq_recv (env.uct_ib_iface_prepare_rx_wrs w.trace max) 0] } := by
  simp [uct_rc_verbs_iface_post_recv_always, World.emit, h, hp]

theorem post_recv_no_fill (env : Env) (w : World)
    (h : w.iface.rx_available < w.iface.rx_max_batch) :
    uct_rc_verbs_iface_post_recv env w false = Outcome.ret 0 w := by
  simp [uct_rc_verbs_iface_post_recv, h]

theorem post_recv_eq_always (env : Env) (w : World) (fill : Bool)
    (h : ¬ (w.iface.rx_available < w.iface.rx_max_batch ∧ fill = false)) :
    uct_rc_verbs_iface_post_recv env w fill =
      uct_rc_verbs_iface_post_recv_always env w (post_recv_request w.iface) := by
  unfold uct_rc_verbs_iface_post_recv post_recv_request
  by_cases hlt : w.iface.rx_available < w.iface.rx_max_batch
  · have hf : fill = true := by
      cases fill
      · exact absurd ⟨hlt, rfl⟩ h
      · rfl
    simp [hlt, hf]
  · simp [hlt]

theorem post_recv_request_le (iface : uct_rc_verbs_iface_t) :
    post_recv_request iface ≤ iface.rx_available := by
  unfold post_recv_request
  split <;> omega

/-- The two ways `post_receive` ends, with the accounting of each, for a counter
in the range of `unsigned` and a batch builder that prepares at most what it is
asked for. -/
theorem post_recv_cases (env : Env) (w : World) (fill : Bool)
    (ha : w.iface.rx_available < UINT_RANGE)
    (hprep : ∀ t m, env.uct_ib_iface_prepare_rx_wrs t m ≤ m) :
    (∃ n w1, uct_rc_verbs_iface_post_recv env w fill = Outcome.ret n w1 ∧
      n ≤ w.iface.rx_available ∧
      n ≤ env.uct_ib_iface_prepare_rx_wrs w.trace (post_recv_request w.iface) ∧
      w1.iface.rx_available + n = w.iface.rx_available ∧
      w1.iface.rx_available = w.iface.rx_available - n ∧
      unsigned_sub w.iface.rx_available n = w.iface.rx_available - n ∧
      (w.iface.rx_available < w.iface.rx_max_batch → fill = false → n = 0)) ∨
    (∃ w1, uct_rc_verbs_iface_post_recv env w fill =
        Outcome.fatal fatal_kind.post_srq_recv_failed w1 ∧
      w1.iface = w.iface ∧
      env.uct_ib_iface_prepare_rx_wrs w.trace (post_recv_request w.iface) ≠ 0 ∧
      env.ibv_post_srq_recv (w.trace ++ [Event.uct_ib_iface_prepare_rx_wrs
        (post_recv_request w.iface)
        (env.uct_ib_iface_prepare_rx_wrs w.trace (post_recv_request w.iface))]) ≠ 0) := by
  by_cases hskip : w.iface.rx_available < w.iface.rx_max_batch ∧ fill = false
  · left
    refine ⟨0, w, ?_, Nat.zero_le _, Nat.zero_le _, rfl, rfl, ?_, fun _ _ => rfl⟩
    · rw [hskip.2]
      exact post_recv_no_fill env w hskip.1
    · exact unsigned_sub_eq ha (Nat.zero_le _)
  · have hcall := post_recv_eq_always env w fill hskip
    have hle := hprep w.trace (post_recv_request w.iface)
    have hreq := post_recv_request_le w.iface
    by_cases hc : env.uct_ib_iface_prepare_rx_wrs w.trace (post_recv_request w.iface) = 0
    · left
      rw [hcall, post_recv_always_zero env w _ hc]
      refine ⟨0, _, rfl, Nat.zero_le _, Nat.zero_le _, rfl, rfl, ?_, fun _ _ => rfl⟩
      exact unsigned_sub_eq ha (Nat.zero_le _)
    · by_cases hp : env.ibv_post_srq_recv (w.trace ++ [Event.uct_ib_iface_prepare_rx_wrs
          (post_recv_request w.iface)
          (env.uct_ib_iface_prepare_rx_wrs w.trace (post_recv_request w.iface))]) = 0
      · left
        rw [hcall, post_recv_always_posted env w _ hc hp]
        have hsub := unsigned_sub_eq ha (le_trans hle hreq)
        refine ⟨_, _, rfl, le_trans hle hreq, le_refl _, ?_, hsub, hsub, ?_⟩
        · show unsigned_sub _ _ + _ = _
          rw [hsub]
          omega
        · intro h1 h2
          exact absurd ⟨h1, h2⟩ hskip
      · right
        rw [hcall, post_recv_always_fatal env w _ hc hp]
        exact ⟨_, rfl, rfl, hc, hp⟩


/-- C1 (as stated, refuted): with counter 10 and batch size 4 the claim promises
that `post_receive(false)` posts `min 10 4 = 4` descriptors; when the pool backs
only one descriptor the call posts 1 and leaves the counter at 9. -/
theorem post_recv_short_pool_posts_less :
    uct_rc_verbs_iface_post_recv (example_env 1 0 no_wc no_wc) (example_world 10 4 []) false =
      Outcome.ret 1
        { iface := example_iface 9 4 [],
          trace := [Event.uct_ib_iface_prepare_rx_wrs 4 1, Event.ibv_post_srq_recv 1 0] } ∧
    (1 : Nat) ≠ min 10 4 := by
  constructor
  · rfl
  · decide

/-- C1 (amended): for a counter `a` in the range of `unsigned`, a batch size `b`,
a batch builder that prepares at most what it is asked for and a submission that
succeeds, `post_receive(fill)` asks the builder for `b` descriptors when
`a ≥ b` and for `a` descriptors when `a < b` and `fill` is true, posts exactly
the number the builder prepared for that request (so exactly `min a b = b`,
respectively `a`, when the pool backs the whole request), posts 0 and leaves the
state alone when `a < b` and `fill` is false, and the counter afterwards is `a`
minus the number posted. -/
theorem post_recv_posts_prepared_count (env : Env) (w : World) (fill : Bool)
    (ha : w.iface.rx_available < UINT_RANGE)
    (hprep : ∀ t m, env.uct_ib_iface_prepare_rx_wrs t m ≤ m)
    (hpost : ∀ t, env.ibv_post_srq_recv t = 0) :
    (w.iface.rx_max_batch ≤ w.iface.rx_available →
      ∃ w1, uct_rc_verbs_iface_post_recv env w fill =
          Outcome.ret (env.uct_ib_iface_prepare_rx_wrs w.trace w.iface.rx_max_batch) w1 ∧
        w1.iface.rx_available = w.iface.rx_available -
          env.uct_ib_iface_prepare_rx_wrs w.trace w.iface.rx_max_batch ∧
        (env.uct_ib_iface_prepare_rx_wrs w.trace w.iface.rx_max_batch = w.iface.rx_max_batch →
          uct_rc_verbs_iface_post_recv env w fill =
            Outcome.ret (min w.iface.rx_available w.iface.rx_max_batch) w1)) ∧
    (w.iface.rx_available < w.iface.rx_max_batch → fill = true →
      ∃ w1, uct_rc_verbs_iface_post_recv env w fill =
          Outcome.ret (env.uct_ib_iface_prepare_rx_wrs w.trace w.iface.rx_available) w1 ∧
        w1.iface.rx_available = w.iface.rx_available -
          env.uct_ib_iface_prepare_rx_wrs w.trace w.iface.rx_available ∧
        (env.uct_ib_iface_prepare_rx_wrs w.trace w.iface.rx_available = w.iface.rx_available →
          uct_rc_verbs_iface_post_recv env w fill = Outcome.ret w.iface.rx_available w1)) ∧
    (w.iface.rx_available < w.iface.rx_max_batch → fill = false →
      uct_rc_verbs_iface_post_recv env w fill = Outcome.ret 0 w) := by
  refine ⟨?_, ?_, ?_⟩
  · intro hge
    have hreq : post_recv_request w.iface = w.iface.rx_max_batch := by
      unfold post_recv_request
      simp [Nat.not_lt.mpr hge]
    have hcall := post_recv_eq_always env w fill (fun h => absurd h.1 (Nat.not_lt.mpr hge))
    rw [hreq] at hcall
    have hle := hprep w.trace w.iface.rx_max_batch
    by_cases hc : env.uct_ib_iface_prepare_rx_wrs w.trace w.iface.rx_max_batch = 0
    · refine ⟨w.emit (Event.uct_ib_iface_prepare_rx_wrs w.iface.rx_max_batch 0), ?_, ?_, ?_⟩
      · rw [hcall, post_recv_always_zero env w _ hc, hc]
      · simp [World.emit, hc]
      · intro hfull
        rw [hcall, post_recv_always_zero env w _ hc]
        have : min w.iface.rx_available w.iface.rx_max_batch = 0 := by omega
        rw [this]
    · rw [hcall, post_recv_always_posted env w _ hc (hpost _)]
      refine ⟨_, rfl, ?_, ?_⟩
      · exact unsigned_sub_eq ha (by omega)
      · intro hfull
        have : min w.iface.rx_available w.iface.rx_max_batch =
            env.uct_ib_iface_prepare_rx_wrs w.trace w.iface.rx_max_batch := by omega
        rw [this]
  · intro hlt hfill
    have hreq : post_recv_request w.iface = w.iface.rx_available := by
      unfold post_recv_request
      simp [hlt]
    have hcall := post_recv_eq_always env w fill (fun h => by simp [hfill] at h)
    rw [hreq] at hcall
    have hle := hprep w.trace w.iface.rx_available
    by_cases hc : env.uct_ib_iface_prepare_rx_wrs w.trace w.iface.rx_available = 0
    · refine ⟨w.emit (Event.uct_ib_iface_prepare_rx_wrs w.iface.rx_available 0), ?_, ?_, ?_⟩
      · rw [hcall, post_recv_always_zero env w _ hc, hc]
      · simp [World.emit, hc]
      · intro hfull
        rw [hcall, post_recv_always_zero env w _ hc]
        have : w.iface.rx_available = 0 := by omega
        rw [this]
    · rw [hcall, post_recv_always_posted env w _ hc (hpost _)]
      refine ⟨_, rfl, ?_, ?_⟩
      · exact unsigned_sub_eq ha (by omega)
      · intro hfull
        rw [hfull]
  · intro hlt hfill
    rw [hfill]
    exact post_recv_no_fill env w hlt


/-- C1 (amended), applied: counter 10, batch 4 and a pool that backs the request
post 4 and leave 6; counter 2 posts 0 without fill and 2 with fill. -/
theorem post_recv_posts_prepared_count_witness :
    ((example_world 10 4 []).iface.rx_available < UINT_RANGE ∧
      (∀ t m, (example_env 100 0 no_wc no_wc).uct_ib_iface_prepare_rx_wrs t m ≤ m) ∧
      (∀ t, (example_env 100 0 no_wc no_wc).ibv_post_srq_recv t = 0)) ∧
    (∃ w1, uct_rc_verbs_iface_post_recv (example_env 100 0 no_wc no_wc)
        (example_world 10 4 []) false = Outcome.ret 4 w1 ∧ w1.iface.rx_available = 6) ∧
    uct_rc_verbs_iface_post_recv (example_env 100 0 no_wc no_wc)
        (example_world 2 4 []) false = Outcome.ret 0 (example_world 2 4 []) ∧
    (∃ w1, uct_rc_verbs_iface_post_recv (example_env 100 0 no_wc no_wc)
        (example_world 2 4 []) true = Outcome.ret 2 w1 ∧ w1.iface.rx_available = 0) := by
  have hprep : ∀ t m, (example_env 100 0 no_wc no_wc).uct_ib_iface_prepare_rx_wrs t m ≤ m :=
    fun _ m => Nat.min_le_left m 100
  have hpost : ∀ t, (example_env 100 0 no_wc no_wc).ibv_post_srq_recv t = 0 := fun _ => rfl
  have h10 := post_recv_posts_prepared_count (example_env 100 0 no_wc no_wc)
    (example_world 10 4 []) false (by decide) hprep hpost
  have h2f := post_recv_posts_prepared_count (example_env 100 0 no_wc no_wc)
    (example_world 2 4 []) false (by decide) hprep hpost
  have h2t := post_recv_posts_prepared_count (example_env 100 0 no_wc no_wc)
    (example_world 2 4 []) true (by decide) hprep hpost
  refine ⟨⟨by decide, hprep, hpost⟩, ?_, ?_, ?_⟩
  · obtain ⟨w1, h1, h2, _⟩ := h10.1 (by decide)
    exact ⟨w1, h1, h2⟩
  · exact h2f.2.2 (by decide) rfl
  · obtain ⟨w1, h1, h2, _⟩ := h2t.2.1 (by decide) rfl
    exact ⟨w1, h1, h2⟩

/-- C2: for a counter in the range of `unsigned`, every `fill`, and every batch
builder that prepares at most what it is asked for, `post_receive` either aborts
because the submission of a prepared batch failed (counter untouched), or
returns a count that is at most the counter before the call and at most what the
builder could prepare, and leaves the counter at exactly the counter before
minus that count: the unsigned subtraction never wraps. -/
theorem post_recv_accounting (env : Env) (w : World) (fill : Bool)
    (ha : w.iface.rx_available < UINT_RANGE)
    (hprep : ∀ t m, env.uct_ib_iface_prepare_rx_wrs t m ≤ m) :
    (∃ n w1, uct_rc_verbs_iface_post_recv env w fill = Outcome.ret n w1 ∧
      n ≤ w.iface.rx_available ∧
      n ≤ env.uct_ib_iface_prepare_rx_wrs w.trace (post_recv_request w.iface) ∧
      w1.iface.rx_available + n = w.iface.rx_available ∧
      w1.iface.rx_available = w.iface.rx_available - n ∧
      unsigned_sub w.iface.rx_available n = w.iface.rx_available - n) ∨
    (∃ w1, uct_rc_verbs_iface_post_recv env w fill =
        Outcome.fatal fatal_kind.post_srq_recv_failed w1 ∧
      w1.iface = w.iface ∧
      env.uct_ib_iface_prepare_rx_wrs w.trace (post_recv_request w.iface) ≠ 0 ∧
      env.ibv_post_srq_recv (w.trace ++ [Event.uct_ib_iface_prepare_rx_wrs
        (post_recv_request w.iface)
        (env.uct_ib_iface_prepare_rx_wrs w.trace (post_recv_request w.iface))]) ≠ 0) := by
  rcases post_recv_cases env w fill ha hprep with
    ⟨n, w1, h1, h2, h3, h4, h5, h6, _⟩ | ⟨w1, h1, h2, h3, h4⟩
  · exact Or.inl ⟨n, w1, h1, h2, h3, h4, h5, h6⟩
  · exact Or.inr ⟨w1, h1, h2, h3, h4⟩

/-- C2, applied: counter 2, batch 4, filling, a pool that backs one descriptor:
one descriptor is posted and the counter is 1. -/
theorem post_recv_accounting_witness :
    ((example_world 2 4 []).iface.rx_available < UINT_RANGE ∧
      (∀ t m, (example_env 1 0 no_wc no_wc).uct_ib_iface_prepare_rx_wrs t m ≤ m)) ∧
    uct_rc_verbs_iface_post_recv (example_env 1 0 no_wc no_wc) (example_world 2 4 []) true =
      Outcome.ret 1
        { iface := example_iface 1 4 [],
          trace := [Event.uct_ib_iface_prepare_rx_wrs 2 1, Event.ibv_post_srq_recv 1 0] } ∧
    ((∃ n w1, uct_rc_verbs_iface_post_recv (example_env 1 0 no_wc no_wc)
          (example_world 2 4 []) true = Outcome.ret n w1 ∧ n ≤ 2 ∧ w1.iface.rx_available + n = 2) ∨
      (∃ w1, uct_rc_verbs_iface_post_recv (example_env 1 0 no_wc no_wc)
          (example_world 2 4 []) true = Outcome.fatal fatal_kind.post_srq_recv_failed w1)) := by
  have hprep : ∀ t m, (example_env 1 0 no_wc no_wc).uct_ib_iface_prepare_rx_wrs t m ≤ m :=
    fun _ m => Nat.min_le_left m 1
  refine ⟨⟨by decide, hprep⟩, rfl, ?_⟩
  rcases post_recv_accounting (example_env 1 0 no_wc no_wc) (example_world 2 4 []) true
    (by decide) hprep with ⟨n, w1, h1, h2, _, h3, _⟩ | ⟨w1, h1, _⟩
  · exact Or.inl ⟨n, w1, h1, h2, h3⟩
  · exact Or.inr ⟨w1, h1⟩


/-! ## Receive completions -/

theorem mem_wc_first {f : Nat → ibv_wc} {n : Nat} {wc : ibv_wc} :
    wc ∈ wc_first f n ↔ ∃ i, i < n ∧ f i = wc := by
  simp [wc_first, List.mem_map, List.mem_range]

theorem poll_rx_loop_success (env : Env) (wcs : List ibv_wc) :
    ∀ w : World, (∀ wc ∈ wcs, wc.status = IBV_WC_SUCCESS) →
      poll_rx_loop env w wcs =
        Outcome.ret () { iface := w.iface, trace := w.trace ++ wcs.map (am_event env w.iface) } := by
  induction wcs with
  | nil =>
    intro w _
    simp [poll_rx_loop]
  | cons wc rest ih =>
    intro w h
    have h0 : wc.status = IBV_WC_SUCCESS := h wc (List.mem_cons_self _ _)
    have hrest : ∀ x ∈ rest, x.status = IBV_WC_SUCCESS :=
      fun x hx => h x (List.mem_cons_of_mem _ hx)
    simp [poll_rx_loop, poll_rx_wc, h0, ih _ hrest, World.emit]

theorem poll_rx_loop_error (env : Env) (wcs : List ibv_wc) :
    ∀ w : World, (∃ wc ∈ wcs, wc.status ≠ IBV_WC_SUCCESS) →
      ∃ w1, poll_rx_loop env w wcs = Outcome.fatal fatal_kind.recv_completion_error w1 ∧
        w1.iface = w.iface := by
  induction wcs with
  | nil =>
    intro w h
    obtain ⟨wc, hmem, _⟩ := h
    cases hmem
  | cons wc rest ih =>
    intro w h
    by_cases h0 : wc.status = IBV_WC_SUCCESS
    · have hrest : ∃ x ∈ rest, x.status ≠ IBV_WC_SUCCESS := by
        obtain ⟨x, hmem, hx⟩ := h
        rcases List.mem_cons.mp hmem with rfl | hmem
        · exact absurd h0 hx
        · exact ⟨x, hmem, hx⟩
      obtain ⟨w1, h1, h2⟩ := ih (w.emit (am_event env w.iface wc)) hrest
      refine ⟨w1, ?_, h2⟩
      simp [poll_rx_loop, poll_rx_wc, h0, h1]
    · exact ⟨w, by simp [poll_rx_loop, poll_rx_wc, h0], rfl⟩

theorem poll_rx_neg (env : Env) (w : World) (h : (rx_poll env w).1 < 0) :
    uct_rc_verbs_iface_poll_rx env w =
      Outcome.fatal fatal_kind.poll_recv_cq_failed
        (w.emit (Event.ibv_poll_cq cq_kind.recv_cq w.iface.rx_max_poll (rx_poll env w).1)) := by
  unfold rx_poll at h
  have h1 : ¬ 0 < (env.ibv_poll_cq cq_kind.recv_cq w.trace w.iface.rx_max_poll).1 := by omega
  have h2 : ¬ (env.ibv_poll_cq cq_kind.recv_cq w.trace w.iface.rx_max_poll).1 = 0 := by omega
  simp [uct_rc_verbs_iface_poll_rx, rx_poll, h1, h2]

theorem poll_rx_zero (env : Env) (w : World) (h : (rx_poll env w).1 = 0) :
    uct_rc_verbs_iface_poll_rx env w =
      poll_rx_finish env (rx_after_completions env w) ucs_status_t.UCS_ERR_NO_PROGRESS := by
  have h0 : (env.ibv_poll_cq cq_kind.recv_cq w.trace w.iface.rx_max_poll).1 = 0 := h
  simp [uct_rc_verbs_iface_poll_rx, rx_after_completions, rx_poll, h0]

theorem poll_rx_pos (env : Env) (w : World) (h : 0 < (rx_poll env w).1)
    (hok : ∀ wc ∈ rx_completions env w, wc.status = IBV_WC_SUCCESS) :
    uct_rc_verbs_iface_poll_rx env w =
      poll_rx_finish env (rx_after_completions env w) ucs_status_t.UCS_OK := by
  have h0 : 0 < (env.ibv_poll_cq cq_kind.recv_cq w.trace w.iface.rx_max_poll).1 := h
  have hl := poll_rx_loop_success env (rx_completions env w)
    (w.emit (Event.ibv_poll_cq cq_kind.recv_cq w.iface.rx_max_poll (rx_poll env w).1)) hok
  unfold rx_completions rx_poll at hl
  simp only [World.emit] at hl
  simp [uct_rc_verbs_iface_poll_rx, rx_after_completions, rx_completions, rx_poll, h0, hl,
    World.emit]

theorem poll_rx_error (env : Env) (w : World) (h : 0 < (rx_poll env w).1)
    (hbad : ∃ wc ∈ rx_completions env w, wc.status ≠ IBV_WC_SUCCESS) :
    ∃ w1, uct_rc_verbs_iface_poll_rx env w =
        Outcome.fatal fatal_kind.recv_completion_error w1 ∧ w1.iface = w.iface := by
  have h0 : 0 < (env.ibv_poll_cq cq_kind.recv_cq w.trace w.iface.rx_max_poll).1 := h
  obtain ⟨w1, h1, h2⟩ := poll_rx_loop_error env (rx_completions env w)
    (w.emit (Event.ibv_poll_cq cq_kind.recv_cq w.iface.rx_max_poll (rx_poll env w).1)) hbad
  unfold rx_completions rx_poll at h1
  refine ⟨w1, ?_, h2⟩
  simp [uct_rc_verbs_iface_poll_rx, h0, h1]

theorem rx_completions_nil (env : Env) (w : World) (h : (rx_poll env w).1 ≤ 0) :
    rx_completions env w = [] := by
  have : (rx_poll env w).1.toNat = 0 := by omega
  simp [rx_completions, wc_first, this]

/-- The replenishment ends in one of two ways: it returns, or the submission of
a prepared batch failed. -/
theorem post_recv_outcome (env : Env) (w : World) (fill : Bool) :
    (∃ p w1, uct_rc_verbs_iface_post_recv env w fill = Outcome.ret p w1) ∨
    (∃ w1, uct_rc_verbs_iface_post_recv env w fill =
      Outcome.fatal fatal_kind.post_srq_recv_failed w1) := by
  by_cases hskip : w.iface.rx_available < w.iface.rx_max_batch ∧ fill = false
  · left
    refine ⟨0, w, ?_⟩
    rw [hskip.2]
    exact post_recv_no_fill env w hskip.1
  · rw [post_recv_eq_always env w fill hskip]
    by_cases hc : env.uct_ib_iface_prepare_rx_wrs w.trace (post_recv_request w.iface) = 0
    · left
      exact ⟨_, _, post_recv_always_zero env w _ hc⟩
    · by_cases hp : env.ibv_post_srq_recv (w.trace ++ [Event.uct_ib_iface_prepare_rx_wrs
          (post_recv_request w.iface)
          (env.uct_ib_iface_prepare_rx_wrs w.trace (post_recv_request w.iface))]) = 0
      · left
        exact ⟨_, _, post_recv_always_posted env w _ hc hp⟩
      · right
        exact ⟨_, post_recv_always_fatal env w _ hc hp⟩

theorem poll_rx_finish_ret (env : Env) (w : World) (status : ucs_status_t) (p : Nat)
    (w1 : World) (h : uct_rc_verbs_iface_post_recv env w false = Outcome.ret p w1) :
    poll_rx_finish env w status = Outcome.ret status w1 := by
  simp [poll_rx_finish, h]

theorem poll_rx_finish_fatal (env : Env) (w : World) (status : ucs_status_t) (k : fatal_kind)
    (w1 : World) (h : uct_rc_verbs_iface_post_recv env w false = Outcome.fatal k w1) :
    poll_rx_finish env w status = Outcome.fatal k w1 := by
  simp [poll_rx_finish, h]


/-! ## What a replenishment leaves alone -/

theorem post_recv_always_frame (env : Env) (w : World) (max : Nat) :
    ∃ t, (uct_rc_verbs_iface_post_recv_always env w max).world.trace = w.trace ++ t ∧
      (∀ e ∈ t, is_replenish_event e = true) ∧
      (uct_rc_verbs_iface_post_recv_always env w max).world.iface =
        { w.iface with
            rx_available :=
              (uct_rc_verbs_iface_post_recv_always env w max).world.iface.rx_available } := by
  by_cases hc : env.uct_ib_iface_prepare_rx_wrs w.trace max = 0
  · rw [post_recv_always_zero env w max hc]
    exact ⟨[Event.uct_ib_iface_prepare_rx_wrs max 0], rfl, by simp [is_replenish_event], rfl⟩
  · by_cases hp : env.ibv_post_srq_recv (w.trace ++ [Event.uct_ib_iface_prepare_rx_wrs max
        (env.uct_ib_iface_prepare_rx_wrs w.trace max)]) = 0
    · rw [post_recv_always_posted env w max hc hp]
      exact ⟨_, rfl, by simp [is_replenish_event], rfl⟩
    · rw [post_recv_always_fatal env w max hc hp]
      exact ⟨_, rfl, by simp [is_replenish_event], rfl⟩

theorem post_recv_frame (env : Env) (w : World) (fill : Bool) :
    ∃ t, (uct_rc_verbs_iface_post_recv env w fill).world.trace = w.trace ++ t ∧
      (∀ e ∈ t, is_replenish_event e = true) ∧
      (uct_rc_verbs_iface_post_recv env w fill).world.iface =
        { w.iface with
            rx_available := (uct_rc_verbs_iface_post_recv env w fill).world.iface.rx_available } := by
  by_cases hskip : w.iface.rx_available < w.iface.rx_max_batch ∧ fill = false
  · have h : uct_rc_verbs_iface_post_recv env w fill = Outcome.ret 0 w := by
      rw [hskip.2]
      exact post_recv_no_fill env w hskip.1
    rw [h]
    exact ⟨[], by simp [Outcome.world], by simp, rfl⟩
  · rw [post_recv_eq_always env w fill hskip]
    exact post_recv_always_frame env w _

theorem poll_rx_finish_world (env : Env) (w : World) (status : ucs_status_t) :
    (poll_rx_finish env w status).world =
      (uct_rc_verbs_iface_post_recv env w false).world := by
  unfold poll_rx_finish
  cases uct_rc_verbs_iface_post_recv env w false <;> rfl

theorem rx_after_completions_trace (env : Env) (w : World) :
    (rx_after_completions env w).trace =
      w.trace ++ Event.ibv_poll_cq cq_kind.recv_cq w.iface.rx_max_poll (rx_poll env w).1 ::
        (rx_completions env w).map (am_event env w.iface) := by
  unfold rx_after_completions
  by_cases h : 0 < (rx_poll env w).1
  · simp [h]
  · have hnil := rx_completions_nil env w (not_lt.mp h)
    simp [h, hnil, World.emit]


/-- C3 (as stated, refuted): the poll of the receive queue returns zero
completions, yet `poll_rx` does not return `no_progress`: the replenishment that
follows prepares a batch of 4, its submission fails, and the call aborts. -/
theorem poll_rx_aborts_after_empty_poll :
    (rx_poll (example_env 100 1 no_wc no_wc) (example_world 4 4 [])).1 = 0 ∧
    uct_rc_verbs_iface_poll_rx (example_env 100 1 no_wc no_wc) (example_world 4 4 []) =
      Outcome.fatal fatal_kind.post_srq_recv_failed
        { iface := example_iface 4 4 [],
          trace := [Event.ibv_poll_cq cq_kind.recv_cq 16 0,
                    Event.uct_ib_iface_prepare_rx_wrs 4 4,
                    Event.ibv_post_srq_recv 4 1] } := by
  constructor
  · rfl
  · rfl

/-- C3 (amended): `poll_rx` returns `ok` exactly when the poll returned a positive
number of completions, all successful, and the replenishment that follows did
not abort; it returns `no_progress` exactly when the poll returned zero
completions and the replenishment did not abort; it ends in the fatal outcome
exactly when the poll returned a negative value, or some returned completion
has a non-success status, or the replenishment failed to submit a prepared
batch; and it returns no status other than those two. -/
theorem poll_rx_status (env : Env) (w : World) :
    ((∃ w1, uct_rc_verbs_iface_poll_rx env w = Outcome.ret ucs_status_t.UCS_OK w1) ↔
      (0 < (rx_poll env w).1 ∧
        (∀ wc ∈ rx_completions env w, wc.status = IBV_WC_SUCCESS) ∧
        ∃ p w1, uct_rc_verbs_iface_post_recv env (rx_after_completions env w) false =
          Outcome.ret p w1)) ∧
    ((∃ w1, uct_rc_verbs_iface_poll_rx env w =
        Outcome.ret ucs_status_t.UCS_ERR_NO_PROGRESS w1) ↔
      ((rx_poll env w).1 = 0 ∧
        ∃ p w1, uct_rc_verbs_iface_post_recv env (rx_after_completions env w) false =
          Outcome.ret p w1)) ∧
    ((∃ k w1, uct_rc_verbs_iface_poll_rx env w = Outcome.fatal k w1) ↔
      ((rx_poll env w).1 < 0 ∨
        (∃ wc ∈ rx_completions env w, wc.status ≠ IBV_WC_SUCCESS) ∨
        (0 ≤ (rx_poll env w).1 ∧
          (∀ wc ∈ rx_completions env w, wc.status = IBV_WC_SUCCESS) ∧
          ∃ w1, uct_rc_verbs_iface_post_recv env (rx_after_completions env w) false =
            Outcome.fatal fatal_kind.post_srq_recv_failed w1))) ∧
    (∀ s w1, uct_rc_verbs_iface_poll_rx env w = Outcome.ret s w1 →
      s = ucs_status_t.UCS_OK ∨ s = ucs_status_t.UCS_ERR_NO_PROGRESS) := by
  rcases lt_trichotomy (rx_poll env w).1 0 with hneg | hzero | hpos
  · -- the poll failed
    have hnil := rx_completions_nil env w (le_of_lt hneg)
    rw [poll_rx_neg env w hneg]
    refine ⟨?_, ?_, ?_, ?_⟩
    · constructor
      · rintro ⟨w1, h⟩
        cases h
      · rintro ⟨h, _⟩
        omega
    · constructor
      · rintro ⟨w1, h⟩
        cases h
      · rintro ⟨h, _⟩
        omega
    · constructor
      · intro _
        exact Or.inl hneg
      · intro _
        exact ⟨_, _, rfl⟩
    · intro s w1 h
      cases h
  · -- the poll found nothing
    have hnil := rx_completions_nil env w (le_of_eq hzero)
    have hall : ∀ wc ∈ rx_completions env w, wc.status = IBV_WC_SUCCESS := by
      rw [hnil]
      intro wc hwc
      cases hwc
    rw [poll_rx_zero env w hzero]
    rcases post_recv_outcome env (rx_after_completions env w) false with ⟨p, w2, hp⟩ | ⟨w2, hp⟩
    · rw [poll_rx_finish_ret env _ _ p w2 hp]
      refine ⟨?_, ?_, ?_, ?_⟩
      · constructor
        · rintro ⟨w1, h⟩
          cases h
        · rintro ⟨h, _⟩
          omega
      · constructor
        · intro _
          exact ⟨hzero, p, w2, hp⟩
        · intro _
          exact ⟨w2, rfl⟩
      · constructor
        · rintro ⟨k, w1, h⟩
          cases h
        · rintro (h | ⟨wc, hwc, hne⟩ | ⟨_, _, w1, h⟩)
          · omega
          · exact absurd (hall wc hwc) hne
          · rw [hp] at h
            cases h
      · intro s w1 h
        cases h
        exact Or.inr rfl
    · rw [poll_rx_finish_fatal env _ _ _ w2 hp]
      refine ⟨?_, ?_, ?_, ?_⟩
      · constructor
        · rintro ⟨w1, h⟩
          cases h
        · rintro ⟨h, _⟩
          omega
      · constructor
        · rintro ⟨w1, h⟩
          cases h
        · rintro ⟨_, p, w1, h⟩
          rw [hp] at h
          cases h
      · constructor
        · intro _
          exact Or.inr (Or.inr ⟨le_of_eq hzero.symm, hall, w2, hp⟩)
        · intro _
          exact ⟨_, _, rfl⟩
      · intro s w1 h
        cases h
  · -- the poll found completions
    by_cases hall : ∀ wc ∈ rx_completions env w, wc.status = IBV_WC_SUCCESS
    · rw [poll_rx_pos env w hpos hall]
      rcases post_recv_outcome env (rx_after_completions env w) false with
        ⟨p, w2, hp⟩ | ⟨w2, hp⟩
      · rw [poll_rx_finish_ret env _ _ p w2 hp]
        refine ⟨?_, ?_, ?_, ?_⟩
        · constructor
          · intro _
            exact ⟨hpos, hall, p, w2, hp⟩
          · intro _
            exact ⟨w2, rfl⟩
        · constructor
          · rintro ⟨w1, h⟩
            cases h
          · rintro ⟨h, _⟩
            omega
        · constructor
          · rintro ⟨k, w1, h⟩
            cases h
          · rintro (h | ⟨wc, hwc, hne⟩ | ⟨_, _, w1, h⟩)
            · omega
            · exact absurd (hall wc hwc) hne
            · rw [hp] at h
              cases h
        · intro s w1 h
          cases h
          exact Or.inl rfl
      · rw [poll_rx_finish_fatal env _ _ _ w2 hp]
        refine ⟨?_, ?_, ?_, ?_⟩
        · constructor
          · rintro ⟨w1, h⟩
            cases h
          · rintro ⟨_, _, p, w1, h⟩
            rw [hp] at h
            cases h
        · constructor
          · rintro ⟨w1, h⟩
            cases h
          · rintro ⟨h, _⟩
            omega
        · constructor
          · intro _
            exact Or.inr (Or.inr ⟨le_of_lt hpos, hall, w2, hp⟩)
          · intro _
            exact ⟨_, _, rfl⟩
        · intro s w1 h
          cases h
    · have hbad : ∃ wc ∈ rx_completions env w, wc.status ≠ IBV_WC_SUCCESS := by
        push_neg at hall
        exact hall
      obtain ⟨w2, hpr, _⟩ := poll_rx_error env w hpos hbad
      rw [hpr]
      refine ⟨?_, ?_, ?_, ?_⟩
      · constructor
        · rintro ⟨w1, h⟩
          cases h
        · rintro ⟨_, h, _⟩
          exact absurd h hall
      · constructor
        · rintro ⟨w1, h⟩
          cases h
        · rintro ⟨h, _⟩
          omega
      · constructor
        · intro _
          exact Or.inr (Or.inl hbad)
        · intro _
          exact ⟨_, _, rfl⟩
      · intro s w1 h
        cases h


/-- C4: when the poll of the receive queue returns `n ≥ 0` completions, all
successful, `poll_rx` first raises the counter from `a` to `a + n` (as an
`unsigned`: exactly `a + n` whenever that fits) and then, also for `n = 0`, runs
the replenishment with `fill = false` on that state.  For a counter in the range
of `unsigned` and a batch builder that prepares at most what it is asked for,
the call either returns with the counter at the raised value minus `p`, where
`p` is the number the replenishment posted and `p = 0` whenever the raised value
is below the batch size, or aborts because the replenishment could not submit
its batch. -/
theorem poll_rx_counter (env : Env) (w : World)
    (hn : 0 ≤ (rx_poll env w).1)
    (hall : ∀ wc ∈ rx_completions env w, wc.status = IBV_WC_SUCCESS)
    (ha : w.iface.rx_available < UINT_RANGE)
    (hprep : ∀ t m, env.uct_ib_iface_prepare_rx_wrs t m ≤ m) :
    (rx_after_completions env w).iface.rx_available =
      (w.iface.rx_available + (rx_poll env w).1.toNat) % UINT_RANGE ∧
    (w.iface.rx_available + (rx_poll env w).1.toNat < UINT_RANGE →
      (rx_after_completions env w).iface.rx_available =
        w.iface.rx_available + (rx_poll env w).1.toNat) ∧
    (rx_after_completions env w).iface.rx_max_batch = w.iface.rx_max_batch ∧
    uct_rc_verbs_iface_poll_rx env w =
      poll_rx_finish env (rx_after_completions env w)
        (if 0 < (rx_poll env w).1 then ucs_status_t.UCS_OK
         else ucs_status_t.UCS_ERR_NO_PROGRESS) ∧
    ((∃ p w1,
        uct_rc_verbs_iface_post_recv env (rx_after_completions env w) false = Outcome.ret p w1 ∧
        uct_rc_verbs_iface_poll_rx env w =
          Outcome.ret (if 0 < (rx_poll env w).1 then ucs_status_t.UCS_OK
                       else ucs_status_t.UCS_ERR_NO_PROGRESS) w1 ∧
        p ≤ (rx_after_completions env w).iface.rx_available ∧
        w1.iface.rx_available = (rx_after_completions env w).iface.rx_available - p ∧
        ((rx_after_completions env w).iface.rx_available < w.iface.rx_max_batch → p = 0)) ∨
      (∃ w1,
        uct_rc_verbs_iface_post_recv env (rx_after_completions env w) false =
          Outcome.fatal fatal_kind.post_srq_recv_failed w1 ∧
        uct_rc_verbs_iface_poll_rx env w = Outcome.fatal fatal_kind.post_srq_recv_failed w1)) := by
  have hR : 0 < UINT_RANGE := by unfold UINT_RANGE; norm_num
  have havail : (rx_after_completions env w).iface.rx_available =
      (w.iface.rx_available + (rx_poll env w).1.toNat) % UINT_RANGE := by
    unfold rx_after_completions
    by_cases h : 0 < (rx_poll env w).1
    · simp [h, unsigned_add]
    · have : (rx_poll env w).1.toNat = 0 := by omega
      simp [h, this, World.emit, Nat.mod_eq_of_lt ha]
  have hbatch : (rx_after_completions env w).iface.rx_max_batch = w.iface.rx_max_batch := by
    unfold rx_after_completions
    by_cases h : 0 < (rx_poll env w).1
    · simp [h]
    · simp [h, World.emit]
  have hcall : uct_rc_verbs_iface_poll_rx env w =
      poll_rx_finish env (rx_after_completions env w)
        (if 0 < (rx_poll env w).1 then ucs_status_t.UCS_OK
         else ucs_status_t.UCS_ERR_NO_PROGRESS) := by
    by_cases h : 0 < (rx_poll env w).1
    · simp [h, poll_rx_pos env w h hall]
    · have hz : (rx_poll env w).1 = 0 := by omega
      simp [h, poll_rx_zero env w hz]
  refine ⟨havail, ?_, hbatch, hcall, ?_⟩
  · intro hfit
    rw [havail]
    exact Nat.mod_eq_of_lt hfit
  have ha1 : (rx_after_completions env w).iface.rx_available < UINT_RANGE := by
    rw [havail]
    exact Nat.mod_lt _ hR
  rcases post_recv_cases env (rx_after_completions env w) false ha1 hprep with
    ⟨p, w1, h1, h2, _, _, h5, _, h7⟩ | ⟨w1, h1, _⟩
  · left
    refine ⟨p, w1, h1, ?_, h2, h5, ?_⟩
    · rw [hcall]
      exact poll_rx_finish_ret env _ _ p w1 h1
    · intro hlt
      apply h7
      · rw [hbatch]
        exact hlt
      · rfl
  · right
    refine ⟨w1, h1, ?_⟩
    rw [hcall]
    exact poll_rx_finish_fatal env _ _ _ w1 h1

/-- C4, applied: counter 3, batch 4, two successful completions: the counter is
raised to 5, one batch of 4 is posted, and the call returns `ok` with counter 1. -/
theorem poll_rx_counter_witness :
    (0 ≤ (rx_poll (example_env 100 0 two_wc no_wc) (example_world 3 4 [])).1 ∧
      (∀ wc ∈ rx_completions (example_env 100 0 two_wc no_wc) (example_world 3 4 []),
        wc.status = IBV_WC_SUCCESS) ∧
      (example_world 3 4 []).iface.rx_available < UINT_RANGE ∧
      (∀ t m, (example_env 100 0 two_wc no_wc).uct_ib_iface_prepare_rx_wrs t m ≤ m)) ∧
    (rx_after_completions (example_env 100 0 two_wc no_wc)
      (example_world 3 4 [])).iface.rx_available = 5 ∧
    (uct_rc_verbs_iface_poll_rx (example_env 100 0 two_wc no_wc)
      (example_world 3 4 [])).world.iface.rx_available = 1 := by
  have hall : ∀ wc ∈ rx_completions (example_env 100 0 two_wc no_wc) (example_world 3 4 []),
      wc.status = IBV_WC_SUCCESS := by decide
  have hprep : ∀ t m, (example_env 100 0 two_wc no_wc).uct_ib_iface_prepare_rx_wrs t m ≤ m :=
    fun _ m => Nat.min_le_left m 100
  have h := poll_rx_counter (example_env 100 0 two_wc no_wc) (example_world 3 4 [])
    (by decide) hall (by decide) hprep
  exact ⟨⟨by decide, hall, by decide, hprep⟩, h.2.1 (by decide), by decide⟩

/-- C9: when the poll of the receive queue returns `n > 0` completions, all
successful, the calls that `poll_rx` adds to the trace are the poll, then one
call of the active-message callback per completion in array order, then the
calls of the replenishment.  The `i`-th callback receives the interface as it
was before the call (counter not yet raised), the `am_id` read from the header of
the descriptor of completion `i`, the address just after that header, the
`size_t` difference of the byte length and the header size (the plain difference
when the completion is at least a header long), and the descriptor.  There are
exactly `n` callbacks, and the counter is raised by `n` only for the state the
replenishment starts from. -/
theorem poll_rx_dispatch (env : Env) (w : World)
    (hpos : 0 < (rx_poll env w).1)
    (hall : ∀ wc ∈ rx_completions env w, wc.status = IBV_WC_SUCCESS) :
    (∃ t,
      (uct_rc_verbs_iface_poll_rx env w).world.trace =
        w.trace ++ Event.ibv_poll_cq cq_kind.recv_cq w.iface.rx_max_poll (rx_poll env w).1 ::
          (List.range (rx_poll env w).1.toNat).map (fun i =>
            Event.uct_ib_iface_invoke_am w.iface
              (env.hdr_am_id (env.uct_ib_iface_recv_desc_hdr ((rx_poll env w).2 i).wr_id))
              (env.uct_ib_iface_recv_desc_hdr ((rx_poll env w).2 i).wr_id +
                env.sizeof_uct_rc_hdr_t)
              (size_t_sub ((rx_poll env w).2 i).byte_len env.sizeof_uct_rc_hdr_t)
              ((rx_poll env w).2 i).wr_id) ++ t ∧
      (∀ e ∈ t, is_replenish_event e = true)) ∧
    ((uct_rc_verbs_iface_poll_rx env w).world.trace.drop w.trace.length).countP is_invoke_am =
      (rx_poll env w).1.toNat ∧
    (∀ i, i < (rx_poll env w).1.toNat →
      env.sizeof_uct_rc_hdr_t ≤ ((rx_poll env w).2 i).byte_len →
      ((rx_poll env w).2 i).byte_len < SIZE_RANGE →
      size_t_sub ((rx_poll env w).2 i).byte_len env.sizeof_uct_rc_hdr_t =
        ((rx_poll env w).2 i).byte_len - env.sizeof_uct_rc_hdr_t) ∧
    uct_rc_verbs_iface_poll_rx env w =
      poll_rx_finish env (rx_after_completions env w) ucs_status_t.UCS_OK ∧
    (rx_after_completions env w).iface.rx_available =
      unsigned_add w.iface.rx_available (rx_poll env w).1.toNat := by
  have hcall := poll_rx_pos env w hpos hall
  obtain ⟨t, ht, hrep, _⟩ := post_recv_frame env (rx_after_completions env w) false
  have htrace : (uct_rc_verbs_iface_poll_rx env w).world.trace =
      w.trace ++ Event.ibv_poll_cq cq_kind.recv_cq w.iface.rx_max_poll (rx_poll env w).1 ::
        (List.range (rx_poll env w).1.toNat).map (fun i =>
          Event.uct_ib_iface_invoke_am w.iface
            (env.hdr_am_id (env.uct_ib_iface_recv_desc_hdr ((rx_poll env w).2 i).wr_id))
            (env.uct_ib_iface_recv_desc_hdr ((rx_poll env w).2 i).wr_id +
              env.sizeof_uct_rc_hdr_t)
            (size_t_sub ((rx_poll env w).2 i).byte_len env.sizeof_uct_rc_hdr_t)
            ((rx_poll env w).2 i).wr_id) ++ t := by
    rw [hcall, poll_rx_finish_world, ht, rx_after_completions_trace]
    simp [rx_completions, wc_first, am_event, List.map_map, Function.comp_def]
  refine ⟨⟨t, htrace, hrep⟩, ?_, ?_, hcall, ?_⟩
  · rw [htrace]
    have ht0 : t.countP is_invoke_am = 0 := by
      rw [List.countP_eq_zero]
      intro e he
      have := hrep e he
      cases e <;> simp_all [is_replenish_event, is_invoke_am]
    simp [List.countP_cons, List.countP_append, ht0, is_invoke_am, List.countP_map,
      Function.comp_def]
  · intro i _ hle hlt
    exact size_t_sub_eq hlt hle
  · simp [rx_after_completions, hpos]

/-- C9, applied: two successful completions for the descriptors at 1000 and
2000, of 9 and 1 bytes, with a one-byte header 64 bytes into the descriptor:
two callbacks, in that order, with payloads at 1065 and 2065 of 8 and 0 bytes,
both seeing the counter at 3, followed by the replenishment. -/
theorem poll_rx_dispatch_witness :
    (0 < (rx_poll (example_env 100 0 two_wc no_wc) (example_world 3 4 [])).1 ∧
      (∀ wc ∈ rx_completions (example_env 100 0 two_wc no_wc) (example_world 3 4 []),
        wc.status = IBV_WC_SUCCESS)) ∧
    ((uct_rc_verbs_iface_poll_rx (example_env 100 0 two_wc no_wc)
        (example_world 3 4 [])).world.trace.drop
          (example_world 3 4 []).trace.length).countP is_invoke_am = 2 ∧
    (uct_rc_verbs_iface_poll_rx (example_env 100 0 two_wc no_wc)
      (example_world 3 4 [])).world.trace =
        [Event.ibv_poll_cq cq_kind.recv_cq 16 2,
         Event.uct_ib_iface_invoke_am (example_iface 3 4 []) 7 1065 8 1000,
         Event.uct_ib_iface_invoke_am (example_iface 3 4 []) 7 2065 0 2000,
         Event.uct_ib_iface_prepare_rx_wrs 4 4,
         Event.ibv_post_srq_recv 4 0] := by
  have hall : ∀ wc ∈ rx_completions (example_env 100 0 two_wc no_wc) (example_world 3 4 []),
      wc.status = IBV_WC_SUCCESS := by decide
  have h := poll_rx_dispatch (example_env 100 0 two_wc no_wc) (example_world 3 4 [])
    (by decide) hall
  exact ⟨⟨by decide, hall⟩, h.2.1, by decide⟩


/-! ## Send completions -/

theorem poll_tx_pos (env : Env) (w : World)
    (h : 0 < (env.ibv_poll_cq cq_kind.send_cq w.trace w.iface.tx_max_poll).1) :
    uct_rc_verbs_iface_poll_tx env w =
      poll_tx_loop
        (w.emit (Event.ibv_poll_cq cq_kind.send_cq w.iface.tx_max_poll
          (env.ibv_poll_cq cq_kind.send_cq w.trace w.iface.tx_max_poll).1))
        (wc_first (env.ibv_poll_cq cq_kind.send_cq w.trace w.iface.tx_max_poll).2
          (env.ibv_poll_cq cq_kind.send_cq w.trace w.iface.tx_max_poll).1.toNat) := by
  have h1 : ¬ (env.ibv_poll_cq cq_kind.send_cq w.trace w.iface.tx_max_poll).1 ≤ 0 := by omega
  simp [uct_rc_verbs_iface_poll_tx, h1]

theorem polls_append (cq : cq_kind) (s t : List Event) :
    polls cq (s ++ t) = polls cq s + polls cq t := by
  simp [polls, List.countP_append]

theorem polls_eq_zero (cq : cq_kind) (t : List Event) (h : ∀ e ∈ t, is_poll cq e = false) :
    polls cq t = 0 := by
  unfold polls
  rw [List.countP_eq_zero]
  intro e he
  simp [h e he]

theorem drop_left_append (s t : List Event) : (s ++ t).drop s.length = t := by
  simp

theorem not_poll_of_replenish (cq : cq_kind) (e : Event) (h : is_replenish_event e = true) :
    is_poll cq e = false := by
  cases e <;> simp_all [is_replenish_event, is_poll]

theorem not_poll_of_invoke_am (cq : cq_kind) (e : Event) (h : is_invoke_am e = true) :
    is_poll cq e = false := by
  cases e <;> simp_all [is_invoke_am, is_poll]

theorem poll_rx_loop_frame (env : Env) (wcs : List ibv_wc) :
    ∀ w : World, (poll_rx_loop env w wcs).world.iface = w.iface ∧
      ∃ t, (poll_rx_loop env w wcs).world.trace = w.trace ++ t ∧
        ∀ e ∈ t, is_invoke_am e = true := by
  induction wcs with
  | nil =>
    intro w
    exact ⟨rfl, [], by simp [poll_rx_loop, Outcome.world], by simp⟩
  | cons wc rest ih =>
    intro w
    by_cases h0 : wc.status = IBV_WC_SUCCESS
    · obtain ⟨h1, t, h2, h3⟩ := ih (w.emit (am_event env w.iface wc))
      have hstep : poll_rx_loop env w (wc :: rest) =
          poll_rx_loop env (w.emit (am_event env w.iface wc)) rest := by
        simp [poll_rx_loop, poll_rx_wc, h0]
      rw [hstep]
      refine ⟨h1, am_event env w.iface wc :: t, ?_, ?_⟩
      · rw [h2]
        simp [World.emit]
      · intro e he
        rcases List.mem_cons.mp he with rfl | he
        · rfl
        · exact h3 e he
    · exact ⟨by simp [poll_rx_loop, poll_rx_wc, h0, Outcome.world], [],
        by simp [poll_rx_loop, poll_rx_wc, h0, Outcome.world], by simp⟩

theorem poll_rx_frame (env : Env) (w : World) :
    (∃ t, (uct_rc_verbs_iface_poll_rx env w).world.trace =
        w.trace ++ Event.ibv_poll_cq cq_kind.recv_cq w.iface.rx_max_poll (rx_poll env w).1 :: t ∧
      ∀ cq, ∀ e ∈ t, is_poll cq e = false) ∧
    (uct_rc_verbs_iface_poll_rx env w).world.iface.eps = w.iface.eps ∧
    (uct_rc_verbs_iface_poll_rx env w).world.iface.tx_cq_available = w.iface.tx_cq_available := by
  have hfin : ∀ status, (∃ t, (poll_rx_finish env (rx_after_completions env w) status).world.trace =
        w.trace ++ Event.ibv_poll_cq cq_kind.recv_cq w.iface.rx_max_poll (rx_poll env w).1 :: t ∧
      ∀ cq, ∀ e ∈ t, is_poll cq e = false) ∧
      (poll_rx_finish env (rx_after_completions env w) status).world.iface.eps = w.iface.eps ∧
      (poll_rx_finish env (rx_after_completions env w) status).world.iface.tx_cq_available =
        w.iface.tx_cq_available := by
    intro status
    obtain ⟨t, ht, hrep, hif⟩ := post_recv_frame env (rx_after_completions env w) false
    have heps : (rx_after_completions env w).iface.eps = w.iface.eps := by
      unfold rx_after_completions
      split <;> rfl
    have hcq : (rx_after_completions env w).iface.tx_cq_available = w.iface.tx_cq_available := by
      unfold rx_after_completions
      split <;> rfl
    rw [poll_rx_finish_world]
    refine ⟨⟨(rx_completions env w).map (am_event env w.iface) ++ t, ?_, ?_⟩, ?_, ?_⟩
    · rw [ht, rx_after_completions_trace]
      simp
    · intro cq e he
      rcases List.mem_append.mp he with he | he
      · obtain ⟨wc, _, rfl⟩ := List.mem_map.mp he
        rfl
      · exact not_poll_of_replenish cq e (hrep e he)
    · rw [hif]
      exact heps
    · rw [hif]
      exact hcq
  rcases lt_trichotomy (rx_poll env w).1 0 with hneg | hzero | hpos
  · rw [poll_rx_neg env w hneg]
    exact ⟨⟨[], by simp [Outcome.world, World.emit], by simp⟩, rfl, rfl⟩
  · rw [poll_rx_zero env w hzero]
    exact hfin _
  · by_cases hall : ∀ wc ∈ rx_completions env w, wc.status = IBV_WC_SUCCESS
    · rw [poll_rx_pos env w hpos hall]
      exact hfin _
    · have h0 : 0 < (env.ibv_poll_cq cq_kind.recv_cq w.trace w.iface.rx_max_poll).1 := hpos
      obtain ⟨h1, t, h2, h3⟩ := poll_rx_loop_frame env (rx_completions env w)
        (w.emit (Event.ibv_poll_cq cq_kind.recv_cq w.iface.rx_max_poll (rx_poll env w).1))
      have hbad : ∃ wc ∈ rx_completions env w, wc.status ≠ IBV_WC_SUCCESS := by
        push_neg at hall
        exact hall
      obtain ⟨w2, h4, _⟩ := poll_rx_loop_error env (rx_completions env w)
        (w.emit (Event.ibv_poll_cq cq_kind.recv_cq w.iface.rx_max_poll (rx_poll env w).1)) hbad
      have hpr : uct_rc_verbs_iface_poll_rx env w =
          Outcome.fatal fatal_kind.recv_completion_error w2 := by
        unfold rx_completions rx_poll at h4
        simp [uct_rc_verbs_iface_poll_rx, h0, h4]
      rw [h4] at h1 h2
      rw [hpr]
      refine ⟨⟨t, ?_, ?_⟩, ?_, ?_⟩
      · show w2.trace = _
        have : w2.trace = (w.emit (Event.ibv_poll_cq cq_kind.recv_cq w.iface.rx_max_poll
            (rx_poll env w).1)).trace ++ t := h2
        rw [this]
        simp [World.emit]
      · intro cq e he
        exact not_poll_of_invoke_am cq e (h3 e he)
      · show w2.iface.eps = _
        have : w2.iface = w.iface := h1
        rw [this]
      · show w2.iface.tx_cq_available = _
        have : w2.iface = w.iface := h1
        rw [this]

theorem poll_tx_loop_frame (wcs : List ibv_wc) :
    ∀ w : World, ∃ t, (poll_tx_loop w wcs).world.trace = w.trace ++ t ∧
      ∀ cq, ∀ e ∈ t, is_poll cq e = false := by
  induction wcs with
  | nil =>
    intro w
    exact ⟨[], by simp [poll_tx_loop, Outcome.world], by simp⟩
  | cons wc rest ih =>
    intro w
    unfold poll_tx_loop
    cases hstep : poll_tx_wc w wc with
    | fatal k w1 =>
      have hw : w1 = w := by
        unfold poll_tx_wc at hstep
        split at hstep
        · cases hstep
          rfl
        · split at hstep
          · cases hstep
            rfl
          · cases hstep
      exact ⟨[], by simp [Outcome.world, hw], by simp⟩
    | ret v w1 =>
      obtain ⟨t, ht, hno⟩ := ih w1
      have hw : ∃ e, w1.trace = w.trace ++ [e] ∧ ∀ cq, is_poll cq e = false := by
        unfold poll_tx_wc at hstep
        split at hstep
        · cases hstep
        · split at hstep
          · cases hstep
          · cases hstep
            exact ⟨_, rfl, fun _ => rfl⟩
      obtain ⟨e, he, hpe⟩ := hw
      refine ⟨e :: t, ?_, ?_⟩
      · show (poll_tx_loop w1 rest).world.trace = _
        rw [ht, he]
        simp
      · intro cq x hx
        rcases List.mem_cons.mp hx with rfl | hx
        · exact hpe cq
        · exact hno cq x hx

theorem poll_tx_frame (env : Env) (w : World) :
    ∃ t, (uct_rc_verbs_iface_poll_tx env w).world.trace =
        w.trace ++ Event.ibv_poll_cq cq_kind.send_cq w.iface.tx_max_poll
          (env.ibv_poll_cq cq_kind.send_cq w.trace w.iface.tx_max_poll).1 :: t ∧
      ∀ cq, ∀ e ∈ t, is_poll cq e = false := by
  by_cases hpos : 0 < (env.ibv_poll_cq cq_kind.send_cq w.trace w.iface.tx_max_poll).1
  · rw [poll_tx_pos env w hpos]
    obtain ⟨t, ht, hno⟩ := poll_tx_loop_frame
      (wc_first (env.ibv_poll_cq cq_kind.send_cq w.trace w.iface.tx_max_poll).2
        (env.ibv_poll_cq cq_kind.send_cq w.trace w.iface.tx_max_poll).1.toNat)
      (w.emit (Event.ibv_poll_cq cq_kind.send_cq w.iface.tx_max_poll
        (env.ibv_poll_cq cq_kind.send_cq w.trace w.iface.tx_max_poll).1))
    refine ⟨t, ?_, hno⟩
    rw [ht]
    simp [World.emit]
  · have hle : (env.ibv_poll_cq cq_kind.send_cq w.trace w.iface.tx_max_poll).1 ≤ 0 := by omega
    refine ⟨[], ?_, by simp⟩
    unfold uct_rc_verbs_iface_poll_tx
    simp only [hle, if_true]
    split <;> simp [Outcome.world, World.emit]

theorem poll_rx_no_progress_iff (env : Env) (w : World) :
    (∃ w1, uct_rc_verbs_iface_poll_rx env w =
        Outcome.ret ucs_status_t.UCS_ERR_NO_PROGRESS w1) ↔
      ((rx_poll env w).1 = 0 ∧
        ∃ p w1, uct_rc_verbs_iface_post_recv env (rx_after_completions env w) false =
          Outcome.ret p w1) := by
  rcases lt_trichotomy (rx_poll env w).1 0 with hneg | hzero | hpos
  · rw [poll_rx_neg env w hneg]
    constructor
    · rintro ⟨w1, h⟩
      cases h
    · rintro ⟨h, _⟩
      omega
  · rw [poll_rx_zero env w hzero]
    rcases post_recv_outcome env (rx_after_completions env w) false with ⟨p, w2, hp⟩ | ⟨w2, hp⟩
    · rw [poll_rx_finish_ret env _ _ p w2 hp]
      exact ⟨fun _ => ⟨hzero, p, w2, hp⟩, fun _ => ⟨w2, rfl⟩⟩
    · rw [poll_rx_finish_fatal env _ _ _ w2 hp]
      constructor
      · rintro ⟨w1, h⟩
        cases h
      · rintro ⟨_, p, w1, h⟩
        rw [hp] at h
        cases h
  · constructor
    · rintro ⟨w1, h⟩
      by_cases hall : ∀ wc ∈ rx_completions env w, wc.status = IBV_WC_SUCCESS
      · rw [poll_rx_pos env w hpos hall] at h
        rcases post_recv_outcome env (rx_after_completions env w) false with
          ⟨p, w2, hp⟩ | ⟨w2, hp⟩
        · rw [poll_rx_finish_ret env _ _ p w2 hp] at h
          cases h
        · rw [poll_rx_finish_fatal env _ _ _ w2 hp] at h
          cases h
      · have hbad : ∃ wc ∈ rx_completions env w, wc.status ≠ IBV_WC_SUCCESS := by
          push_neg at hall
          exact hall
        obtain ⟨w2, hpr, _⟩ := poll_rx_error env w hpos hbad
        rw [hpr] at h
        cases h
    · rintro ⟨h, _⟩
      omega


/-- C6 (as stated, refuted): the poll of the receive queue returns zero events,
yet `poll_tx` is not invoked in that call of `progress`: the replenishment at
the end of `poll_rx` fails to submit its batch and aborts, so the send queue is
never polled. -/
theorem progress_empty_poll_without_poll_tx :
    (rx_poll (example_env 100 1 no_wc one_tx_wc) (example_world 4 4 [⟨5, 0, 10⟩])).1 = 0 ∧
    uct_rc_verbs_iface_progress (example_env 100 1 no_wc one_tx_wc)
        (example_world 4 4 [⟨5, 0, 10⟩]) =
      Outcome.fatal fatal_kind.post_srq_recv_failed
        { iface := example_iface 4 4 [⟨5, 0, 10⟩],
          trace := [Event.ibv_poll_cq cq_kind.recv_cq 16 0,
                    Event.uct_ib_iface_prepare_rx_wrs 4 4,
                    Event.ibv_post_srq_recv 4 1] } ∧
    polls cq_kind.send_cq (uct_rc_verbs_iface_progress (example_env 100 1 no_wc one_tx_wc)
        (example_world 4 4 [⟨5, 0, 10⟩])).world.trace = 0 := by
  refine ⟨rfl, rfl, ?_⟩
  decide

/-- C6 (amended): in every call of `progress`, `poll_rx` runs exactly once, first:
the receive queue is polled once, as the first call.  `poll_tx` runs, once and
after everything `poll_rx` did, if and only if `poll_rx` returned `no_progress`:
then the send queue is polled exactly once, and otherwise not at all and the
call ends as `poll_rx` ended.  `poll_rx` returns `no_progress` if and only if the
poll of the receive queue returned zero events and the replenishment that
follows did not abort.  When the poll of the receive queue found events, the
send queue is not polled and no endpoint and no `cq_available` changes. -/
theorem progress_short_circuit (env : Env) (w : World) :
    (∃ t, (uct_rc_verbs_iface_progress env w).world.trace =
        w.trace ++ Event.ibv_poll_cq cq_kind.recv_cq w.iface.rx_max_poll (rx_poll env w).1 :: t ∧
      polls cq_kind.recv_cq t = 0) ∧
    (∀ w1, uct_rc_verbs_iface_poll_rx env w = Outcome.ret ucs_status_t.UCS_ERR_NO_PROGRESS w1 →
      uct_rc_verbs_iface_progress env w = uct_rc_verbs_iface_poll_tx env w1 ∧
      (∃ t, (uct_rc_verbs_iface_progress env w).world.trace =
          w1.trace ++ Event.ibv_poll_cq cq_kind.send_cq w1.iface.tx_max_poll
            (env.ibv_poll_cq cq_kind.send_cq w1.trace w1.iface.tx_max_poll).1 :: t ∧
        polls cq_kind.send_cq t = 0) ∧
      polls cq_kind.send_cq
        ((uct_rc_verbs_iface_progress env w).world.trace.drop w.trace.length) = 1) ∧
    ((¬ ∃ w1, uct_rc_verbs_iface_poll_rx env w =
        Outcome.ret ucs_status_t.UCS_ERR_NO_PROGRESS w1) →
      (uct_rc_verbs_iface_progress env w).world = (uct_rc_verbs_iface_poll_rx env w).world ∧
      polls cq_kind.send_cq
        ((uct_rc_verbs_iface_progress env w).world.trace.drop w.trace.length) = 0) ∧
    ((∃ w1, uct_rc_verbs_iface_poll_rx env w =
        Outcome.ret ucs_status_t.UCS_ERR_NO_PROGRESS w1) ↔
      ((rx_poll env w).1 = 0 ∧
        ∃ p w1, uct_rc_verbs_iface_post_recv env (rx_after_completions env w) false =
          Outcome.ret p w1)) ∧
    (0 < (rx_poll env w).1 →
      polls cq_kind.send_cq
        ((uct_rc_verbs_iface_progress env w).world.trace.drop w.trace.length) = 0 ∧
      (uct_rc_verbs_iface_progress env w).world.iface.eps = w.iface.eps ∧
      (uct_rc_verbs_iface_progress env w).world.iface.tx_cq_available =
        w.iface.tx_cq_available) := by
  obtain ⟨⟨t1, ht1, hno1⟩, heps, hcq⟩ := poll_rx_frame env w
  -- the call ends as `poll_rx` ended unless `poll_rx` returned `no_progress`
  have hsame : (¬ ∃ w1, uct_rc_verbs_iface_poll_rx env w =
        Outcome.ret ucs_status_t.UCS_ERR_NO_PROGRESS w1) →
      (uct_rc_verbs_iface_progress env w).world = (uct_rc_verbs_iface_poll_rx env w).world := by
    intro hnp
    unfold uct_rc_verbs_iface_progress
    cases h : uct_rc_verbs_iface_poll_rx env w with
    | fatal k w1 => rfl
    | ret s w1 =>
      have hs : s ≠ ucs_status_t.UCS_ERR_NO_PROGRESS := by
        intro hs
        exact hnp ⟨w1, by rw [h, hs]⟩
      simp [hs, Outcome.world]
  have htx : ∀ w1, uct_rc_verbs_iface_poll_rx env w =
        Outcome.ret ucs_status_t.UCS_ERR_NO_PROGRESS w1 →
      uct_rc_verbs_iface_progress env w = uct_rc_verbs_iface_poll_tx env w1 := by
    intro w1 h
    simp [uct_rc_verbs_iface_progress, h]
  have hdrop : ∀ t, (w.trace ++ t).drop w.trace.length = t := fun t => drop_left_append _ t
  have hzero_send : (¬ ∃ w1, uct_rc_verbs_iface_poll_rx env w =
        Outcome.ret ucs_status_t.UCS_ERR_NO_PROGRESS w1) →
      polls cq_kind.send_cq
        ((uct_rc_verbs_iface_progress env w).world.trace.drop w.trace.length) = 0 := by
    intro hnp
    rw [hsame hnp, ht1, hdrop]
    apply polls_eq_zero
    intro e he
    rcases List.mem_cons.mp he with rfl | he
    · rfl
    · exact hno1 _ e he
  refine ⟨?_, ?_, fun hnp => ⟨hsame hnp, hzero_send hnp⟩, poll_rx_no_progress_iff env w, ?_⟩
  · by_cases hnp : ∃ w1, uct_rc_verbs_iface_poll_rx env w =
        Outcome.ret ucs_status_t.UCS_ERR_NO_PROGRESS w1
    · obtain ⟨w1, h⟩ := hnp
      obtain ⟨t2, ht2, hno2⟩ := poll_tx_frame env w1
      have hw1 : w1.trace = w.trace ++
          Event.ibv_poll_cq cq_kind.recv_cq w.iface.rx_max_poll (rx_poll env w).1 :: t1 := by
        rw [h] at ht1
        exact ht1
      refine ⟨t1 ++ Event.ibv_poll_cq cq_kind.send_cq w1.iface.tx_max_poll
        (env.ibv_poll_cq cq_kind.send_cq w1.trace w1.iface.tx_max_poll).1 :: t2, ?_, ?_⟩
      · rw [htx w1 h, ht2]
        rw [hw1]
        simp
      · apply polls_eq_zero
        intro e he
        rcases List.mem_append.mp he with he | he
        · exact hno1 _ e he
        · rcases List.mem_cons.mp he with rfl | he
          · rfl
          · exact hno2 _ e he
    · refine ⟨t1, ?_, polls_eq_zero _ _ (hno1 _)⟩
      rw [hsame hnp, ht1]
  · intro w1 h
    obtain ⟨t2, ht2, hno2⟩ := poll_tx_frame env w1
    have hw1 : w1.trace = w.trace ++
        Event.ibv_poll_cq cq_kind.recv_cq w.iface.rx_max_poll (rx_poll env w).1 :: t1 := by
      rw [h] at ht1
      exact ht1
    refine ⟨htx w1 h, ⟨t2, ?_, polls_eq_zero _ _ (hno2 _)⟩, ?_⟩
    · rw [htx w1 h, ht2]
    · rw [htx w1 h, ht2]
      have hsplit : w1.trace ++ Event.ibv_poll_cq cq_kind.send_cq w1.iface.tx_max_poll
            (env.ibv_poll_cq cq_kind.send_cq w1.trace w1.iface.tx_max_poll).1 :: t2 =
          w.trace ++ (Event.ibv_poll_cq cq_kind.recv_cq w.iface.rx_max_poll (rx_poll env w).1 ::
            t1 ++ Event.ibv_poll_cq cq_kind.send_cq w1.iface.tx_max_poll
              (env.ibv_poll_cq cq_kind.send_cq w1.trace w1.iface.tx_max_poll).1 :: t2) := by
        rw [hw1]
        simp
      rw [hsplit, hdrop, polls_append]
      have h1 : polls cq_kind.send_cq
          (Event.ibv_poll_cq cq_kind.recv_cq w.iface.rx_max_poll (rx_poll env w).1 :: t1) = 0 := by
        apply polls_eq_zero
        intro e he
        rcases List.mem_cons.mp he with rfl | he
        · rfl
        · exact hno1 _ e he
      have h2 : polls cq_kind.send_cq t2 = 0 := polls_eq_zero _ _ (hno2 _)
      have h3 : polls cq_kind.send_cq
          (Event.ibv_poll_cq cq_kind.send_cq w1.iface.tx_max_poll
            (env.ibv_poll_cq cq_kind.send_cq w1.trace w1.iface.tx_max_poll).1 :: t2) =
          polls cq_kind.send_cq t2 + 1 := by
        simp [polls, List.countP_cons, is_poll]
      rw [h1, h3, h2]
  · intro hpos
    have hnp : ¬ ∃ w1, uct_rc_verbs_iface_poll_rx env w =
        Outcome.ret ucs_status_t.UCS_ERR_NO_PROGRESS w1 := by
      intro h
      have := ((poll_rx_no_progress_iff env w).mp h).1
      omega
    refine ⟨hzero_send hnp, ?_, ?_⟩
    · rw [hsame hnp]
      exact heps
    · rw [hsame hnp]
      exact hcq


/-! ## Capability query -/

theorem ilog2_loop_eq_log (fuel : Nat) : ∀ n, n ≤ fuel → ilog2_loop fuel n = Nat.log 2 n := by
  induction fuel with
  | zero =>
    intro n hn
    have : n = 0 := by omega
    subst this
    simp [ilog2_loop]
  | succ fuel ih =>
    intro n hn
    unfold ilog2_loop
    by_cases h2 : 2 ≤ n
    · have hdiv : n / 2 ≤ fuel := by omega
      rw [if_pos h2, ih _ hdiv]
      rw [Nat.log_of_one_lt_of_le (by norm_num) h2]
    · rw [if_neg h2]
      have : n < 2 := by omega
      exact (Nat.log_of_lt this).symm

/-- The model of `ucs_ilog2` is the floor of the base-2 logarithm. -/
theorem ucs_ilog2_eq_log (n : Nat) : ucs_ilog2 n = Nat.log 2 n :=
  ilog2_loop_eq_log n n (le_refl n)

theorem ext_atomic_supported_iff (dev_attr : ibv_exp_device_attr) (s : Nat) :
    uct_rc_verbs_is_ext_atomic_supported dev_attr s = true ↔
      ∃ e, dev_attr.ext_atom = some e ∧ Nat.log 2 s ≤ e.log_max_atomic_inline ∧
        e.log_atomic_arg_sizes &&& s ≠ 0 := by
  unfold uct_rc_verbs_is_ext_atomic_supported
  cases h : dev_attr.ext_atom with
  | none => simp
  | some e => simp [ucs_ilog2_eq_log]

theorem query_cap_flags (env : Env) (iface : uct_rc_verbs_iface_t) (base : uct_iface_attr_t) :
    (uct_rc_verbs_iface_query env iface base).2.cap_flags =
      base.cap_flags ∪ query_atomic_flags iface.dev_attr := rfl


theorem query_atomic_flags_mem (dev : ibv_exp_device_attr) (f : uct_iface_flag) :
    f ∈ query_atomic_flags dev ↔
      ((dev.have_atomic_hca = true ∨ dev.have_atomic_glob = true ∨
          dev.have_atomic_hca_reply_be = true) ∧
        ((f = uct_iface_flag.ATOMIC_ADD64 ∨ f = uct_iface_flag.ATOMIC_FADD64 ∨
            f = uct_iface_flag.ATOMIC_CSWAP64) ∨
          ((f = uct_iface_flag.ATOMIC_ADD32 ∨ f = uct_iface_flag.ATOMIC_FADD32 ∨
              f = uct_iface_flag.ATOMIC_SWAP32 ∨ f = uct_iface_flag.ATOMIC_CSWAP32) ∧
            uct_rc_verbs_is_ext_atomic_supported dev sizeof_uint32_t = true) ∨
          (f = uct_iface_flag.ATOMIC_SWAP64 ∧
            uct_rc_verbs_is_ext_atomic_supported dev sizeof_uint64_t = true))) := by
  have hmech : (dev.have_atomic_hca || dev.have_atomic_glob ||
      dev.have_atomic_hca_reply_be) = true ↔
      (dev.have_atomic_hca = true ∨ dev.have_atomic_glob = true ∨
        dev.have_atomic_hca_reply_be = true) := by
    simp only [Bool.or_eq_true, or_assoc]
  unfold query_atomic_flags
  rw [← hmech]
  by_cases hm : (dev.have_atomic_hca || dev.have_atomic_glob ||
      dev.have_atomic_hca_reply_be) = true
  · rw [if_pos hm]
    cases h4 : uct_rc_verbs_is_ext_atomic_supported dev sizeof_uint32_t <;>
      cases h5 : uct_rc_verbs_is_ext_atomic_supported dev sizeof_uint64_t <;>
      simp only [hm, Finset.mem_union, Finset.mem_insert, Finset.mem_singleton, if_true,
        if_false, Bool.false_eq_true, and_true, and_false, or_false, true_and] <;>
      tauto
  · rw [if_neg hm]
    simp [hm]

/-- C7: the capability query joins to the base report a set of flags in which
the 64-bit add, fetch-add and compare-swap flags are present if and only if the
device reports at least one atomic mechanism (HCA, GLOB or HCA-reply-big-endian);
the 32-bit add, fetch-add, swap and compare-swap flags if and only if, in
addition, the extended-atomic predicate holds for the 4-byte operand; the 64-bit
swap flag if and only if, in addition, it holds for the 8-byte operand; no other
flag ever; and nothing at all when no atomic mechanism is reported.  The
extended-atomic predicate for operand size `s` is: the extended parameters are
there, `log_max_atomic_inline` is at least the floor of `log2 s`, and the
arg-size bitmask has a bit in common with `s`. -/
theorem query_atomic_caps (env : Env) (iface : uct_rc_verbs_iface_t) (base : uct_iface_attr_t) :
    ∃ added : Finset uct_iface_flag,
      (uct_rc_verbs_iface_query env iface base).2.cap_flags = base.cap_flags ∪ added ∧
      (∀ f, f = uct_iface_flag.ATOMIC_ADD64 ∨ f = uct_iface_flag.ATOMIC_FADD64 ∨
          f = uct_iface_flag.ATOMIC_CSWAP64 →
        (f ∈ added ↔
          (iface.dev_attr.have_atomic_hca = true ∨ iface.dev_attr.have_atomic_glob = true ∨
            iface.dev_attr.have_atomic_hca_reply_be = true))) ∧
      (∀ f, f = uct_iface_flag.ATOMIC_ADD32 ∨ f = uct_iface_flag.ATOMIC_FADD32 ∨
          f = uct_iface_flag.ATOMIC_SWAP32 ∨ f = uct_iface_flag.ATOMIC_CSWAP32 →
        (f ∈ added ↔
          ((iface.dev_attr.have_atomic_hca = true ∨ iface.dev_attr.have_atomic_glob = true ∨
              iface.dev_attr.have_atomic_hca_reply_be = true) ∧
            ∃ e, iface.dev_attr.ext_atom = some e ∧
              Nat.log 2 4 ≤ e.log_max_atomic_inline ∧ e.log_atomic_arg_sizes &&& 4 ≠ 0))) ∧
      (uct_iface_flag.ATOMIC_SWAP64 ∈ added ↔
        ((iface.dev_attr.have_atomic_hca = true ∨ iface.dev_attr.have_atomic_glob = true ∨
            iface.dev_attr.have_atomic_hca_reply_be = true) ∧
          ∃ e, iface.dev_attr.ext_atom = some e ∧
            Nat.log 2 8 ≤ e.log_max_atomic_inline ∧ e.log_atomic_arg_sizes &&& 8 ≠ 0)) ∧
      (∀ bit, uct_iface_flag.other bit ∉ added) ∧
      (¬ (iface.dev_attr.have_atomic_hca = true ∨ iface.dev_attr.have_atomic_glob = true ∨
          iface.dev_attr.have_atomic_hca_reply_be = true) → added = ∅) ∧
      (∀ s, uct_rc_verbs_is_ext_atomic_supported iface.dev_attr s = true ↔
        ∃ e, iface.dev_attr.ext_atom = some e ∧ Nat.log 2 s ≤ e.log_max_atomic_inline ∧
          e.log_atomic_arg_sizes &&& s ≠ 0) := by
  have h32 := ext_atomic_supported_iff iface.dev_attr sizeof_uint32_t
  have h64 := ext_atomic_supported_iff iface.dev_attr sizeof_uint64_t
  simp only [sizeof_uint32_t, sizeof_uint64_t] at h32 h64
  refine ⟨query_atomic_flags iface.dev_attr, query_cap_flags env iface base, ?_, ?_, ?_, ?_, ?_,
    ext_atomic_supported_iff iface.dev_attr⟩
  · intro f hf
    rw [query_atomic_flags_mem]
    constructor
    · exact fun h => h.1
    · exact fun h => ⟨h, Or.inl hf⟩
  · intro f hf
    rw [query_atomic_flags_mem, ← h32]
    constructor
    · rintro ⟨hm, h | h | h⟩
      · rcases hf with rfl | rfl | rfl | rfl <;> rcases h with h | h | h <;> cases h
      · exact ⟨hm, h.2⟩
      · rcases hf with rfl | rfl | rfl | rfl <;> cases h.1
    · exact fun h => ⟨h.1, Or.inr (Or.inl ⟨hf, h.2⟩)⟩
  · rw [query_atomic_flags_mem, ← h64]
    constructor
    · rintro ⟨hm, h | h | h⟩
      · rcases h with h | h | h <;> cases h
      · rcases h.1 with h | h | h | h <;> cases h
      · exact ⟨hm, h.2⟩
    · exact fun h => ⟨h.1, Or.inr (Or.inr ⟨rfl, h.2⟩)⟩
  · intro bit
    rw [query_atomic_flags_mem]
    rintro ⟨_, h | h | h⟩
    · rcases h with h | h | h <;> cases h
    · rcases h.1 with h | h | h | h <;> cases h
    · cases h.1
  · intro hno
    apply Finset.eq_empty_of_forall_not_mem
    intro f hf
    exact hno ((query_atomic_flags_mem _ f).mp hf).1


/-! ## Construction -/

theorem init_prime_rx_config (env : Env) (fuel : Nat) :
    ∀ (w : World) (r : Outcome ucs_status_t), init_prime_rx env fuel w = some r →
      r.world.iface.dev_attr = w.iface.dev_attr ∧
      r.world.iface.atomic32_handler = w.iface.atomic32_handler ∧
      r.world.iface.atomic64_handler = w.iface.atomic64_handler := by
  induction fuel with
  | zero =>
    intro w r h
    simp [init_prime_rx] at h
  | succ fuel ih =>
    intro w r h
    unfold init_prime_rx at h
    by_cases hpos : 0 < w.iface.rx_available
    · rw [if_pos hpos] at h
      obtain ⟨_, _, _, hif⟩ := post_recv_frame env w true
      have hd := congrArg uct_rc_verbs_iface_t.dev_attr hif
      have h32 := congrArg uct_rc_verbs_iface_t.atomic32_handler hif
      have h64 := congrArg uct_rc_verbs_iface_t.atomic64_handler hif
      cases hpr : uct_rc_verbs_iface_post_recv env w true with
      | fatal k w1 =>
        rw [hpr] at h hd h32 h64
        simp only [Option.some.injEq] at h
        subst h
        exact ⟨hd, h32, h64⟩
      | ret n w1 =>
        rw [hpr] at h hd h32 h64
        by_cases hn : n = 0
        · simp only [hn, if_true, Option.some.injEq] at h
          subst h
          exact ⟨hd, h32, h64⟩
        · simp only [hn, if_false] at h
          obtain ⟨g1, g2, g3⟩ := ih w1 r h
          exact ⟨g1.trans hd, g2.trans h32, g3.trans h64⟩
    · rw [if_neg hpos] at h
      simp only [Option.some.injEq] at h
      subst h
      exact ⟨rfl, rfl, rfl⟩

theorem init_config_dev_attr (env : Env) (max_am_hdr : Nat) (self : uct_rc_verbs_iface_t) :
    (init_config env max_am_hdr self).dev_attr = self.dev_attr := by
  unfold init_config
  simp only []
  split
  · rfl
  · split <;> rfl

theorem init_iface_config (env : Env) (max_am_hdr fuel : Nat) (w : World)
    (r : Outcome ucs_status_t) (h : uct_rc_verbs_iface_init env max_am_hdr fuel w = some r) :
    r.world.iface.dev_attr = w.iface.dev_attr ∧
    r.world.iface.atomic32_handler = (init_config env max_am_hdr w.iface).atomic32_handler ∧
    r.world.iface.atomic64_handler = (init_config env max_am_hdr w.iface).atomic64_handler := by
  have hdev := init_config_dev_attr env max_am_hdr w.iface
  unfold uct_rc_verbs_iface_init at h
  simp only [] at h
  split at h
  · simp only [Option.some.injEq] at h
    subst h
    exact ⟨hdev, rfl, rfl⟩
  · split at h
    · simp only [Option.some.injEq] at h
      subst h
      exact ⟨hdev, rfl, rfl⟩
    · obtain ⟨g1, g2, g3⟩ := init_prime_rx_config env fuel _ r h
      exact ⟨g1.trans hdev, g2, g3⟩


theorem init_config_handlers (env : Env) (max_am_hdr : Nat) (self : uct_rc_verbs_iface_t) :
    ((self.dev_attr.have_atomic_hca = true ∨ self.dev_attr.have_atomic_glob = true) →
      (init_config env max_am_hdr self).atomic32_handler =
          some atomic_handler.uct_rc_ep_atomic_handler_32_be0 ∧
        (init_config env max_am_hdr self).atomic64_handler =
          some atomic_handler.uct_rc_ep_atomic_handler_64_be0) ∧
    (self.dev_attr.have_atomic_hca = false → self.dev_attr.have_atomic_glob = false →
      self.dev_attr.have_atomic_hca_reply_be = true →
      (init_config env max_am_hdr self).atomic32_handler =
          some atomic_handler.uct_rc_ep_atomic_handler_32_be1 ∧
        (init_config env max_am_hdr self).atomic64_handler =
          some atomic_handler.uct_rc_ep_atomic_handler_64_be1) ∧
    (self.dev_attr.have_atomic_hca = false → self.dev_attr.have_atomic_glob = false →
      self.dev_attr.have_atomic_hca_reply_be = false →
      (init_config env max_am_hdr self).atomic32_handler = self.atomic32_handler ∧
        (init_config env max_am_hdr self).atomic64_handler = self.atomic64_handler) := by
  unfold init_config
  cases h1 : self.dev_attr.have_atomic_hca <;> cases h2 : self.dev_attr.have_atomic_glob <;>
    cases h3 : self.dev_attr.have_atomic_hca_reply_be <;> simp [h1, h2, h3]

theorem query_atomic_flags_eq_empty (dev : ibv_exp_device_attr) :
    query_atomic_flags dev = ∅ ↔
      (dev.have_atomic_hca = false ∧ dev.have_atomic_glob = false ∧
        dev.have_atomic_hca_reply_be = false) := by
  constructor
  · intro h
    have hnot : uct_iface_flag.ATOMIC_ADD64 ∉ query_atomic_flags dev := by
      rw [h]
      exact Finset.not_mem_empty _
    rw [query_atomic_flags_mem] at hnot
    have hm : ¬ (dev.have_atomic_hca = true ∨ dev.have_atomic_glob = true ∨
        dev.have_atomic_hca_reply_be = true) := fun hm => hnot ⟨hm, Or.inl (Or.inl rfl)⟩
    cases h1 : dev.have_atomic_hca <;> cases h2 : dev.have_atomic_glob <;>
      cases h3 : dev.have_atomic_hca_reply_be <;> simp_all
  · rintro ⟨h1, h2, h3⟩
    apply Finset.eq_empty_of_forall_not_mem
    intro f hf
    have := ((query_atomic_flags_mem dev f).mp hf).1
    simp [h1, h2, h3] at this

/-- C10: an interface constructed on freshly allocated memory (no handler
assigned yet) keeps the device attributes it was constructed on, and on those
attributes: if the capability query joins any atomic flag to its report, both
atomic completion handlers have been assigned, the host-native (be0) pair when
the device reports HCA or GLOB atomics and the byte-swapped (be1) pair when it
reports neither of those, in which case it reports HCA-reply-big-endian; a be1
handler is assigned only in that last case; and both handlers are unassigned
exactly when the query joins no atomic flag, which is exactly when no atomic
mechanism is reported. -/
theorem atomic_handlers_match_query (env : Env) (max_am_hdr fuel : Nat) (w : World)
    (r : Outcome ucs_status_t) (base : uct_iface_attr_t)
    (hfresh : w.iface.atomic32_handler = none ∧ w.iface.atomic64_handler = none)
    (hinit : uct_rc_verbs_iface_init env max_am_hdr fuel w = some r) :
    r.world.iface.dev_attr = w.iface.dev_attr ∧
    (uct_rc_verbs_iface_query env r.world.iface base).2.cap_flags =
      base.cap_flags ∪ query_atomic_flags w.iface.dev_attr ∧
    ((query_atomic_flags w.iface.dev_attr).Nonempty →
      ((w.iface.dev_attr.have_atomic_hca = true ∨ w.iface.dev_attr.have_atomic_glob = true) →
        r.world.iface.atomic32_handler =
            some atomic_handler.uct_rc_ep_atomic_handler_32_be0 ∧
          r.world.iface.atomic64_handler =
            some atomic_handler.uct_rc_ep_atomic_handler_64_be0) ∧
      ((w.iface.dev_attr.have_atomic_hca = false ∧ w.iface.dev_attr.have_atomic_glob = false) →
        w.iface.dev_attr.have_atomic_hca_reply_be = true ∧
          r.world.iface.atomic32_handler =
            some atomic_handler.uct_rc_ep_atomic_handler_32_be1 ∧
          r.world.iface.atomic64_handler =
            some atomic_handler.uct_rc_ep_atomic_handler_64_be1)) ∧
    ((r.world.iface.atomic32_handler = some atomic_handler.uct_rc_ep_atomic_handler_32_be1 ∨
        r.world.iface.atomic64_handler = some atomic_handler.uct_rc_ep_atomic_handler_64_be1) →
      w.iface.dev_attr.have_atomic_hca = false ∧ w.iface.dev_attr.have_atomic_glob = false ∧
        w.iface.dev_attr.have_atomic_hca_reply_be = true) ∧
    ((r.world.iface.atomic32_handler = none ∧ r.world.iface.atomic64_handler = none) ↔
      query_atomic_flags w.iface.dev_attr = ∅) ∧
    (query_atomic_flags w.iface.dev_attr = ∅ ↔
      (w.iface.dev_attr.have_atomic_hca = false ∧ w.iface.dev_attr.have_atomic_glob = false ∧
        w.iface.dev_attr.have_atomic_hca_reply_be = false)) := by
  obtain ⟨hdev, h32, h64⟩ := init_iface_config env max_am_hdr fuel w r hinit
  obtain ⟨hbe0, hbe1, hnone⟩ := init_config_handlers env max_am_hdr w.iface
  have hempty := query_atomic_flags_eq_empty w.iface.dev_attr
  rw [h32, h64]
  refine ⟨hdev, ?_, ?_, ?_, ?_, hempty⟩
  · rw [query_cap_flags, hdev]
  · intro hne
    have hnot : ¬ query_atomic_flags w.iface.dev_attr = ∅ := Finset.nonempty_iff_ne_empty.mp hne
    rw [hempty] at hnot
    refine ⟨hbe0, ?_⟩
    rintro ⟨h1, h2⟩
    cases h3 : w.iface.dev_attr.have_atomic_hca_reply_be
    · exact absurd ⟨h1, h2, h3⟩ hnot
    · exact ⟨rfl, hbe1 h1 h2 h3⟩
  · intro hb
    cases h1 : w.iface.dev_attr.have_atomic_hca
    · cases h2 : w.iface.dev_attr.have_atomic_glob
      · cases h3 : w.iface.dev_attr.have_atomic_hca_reply_be
        · obtain ⟨g1, g2⟩ := hnone h1 h2 h3
          rw [g1, g2, hfresh.1, hfresh.2] at hb
          rcases hb with hb | hb <;> cases hb
        · exact ⟨rfl, rfl, rfl⟩
      · obtain ⟨g1, g2⟩ := hbe0 (Or.inr h2)
        rw [g1, g2] at hb
        rcases hb with hb | hb <;> cases hb
    · obtain ⟨g1, g2⟩ := hbe0 (Or.inl h1)
      rw [g1, g2] at hb
      rcases hb with hb | hb <;> cases hb
  · rw [hempty]
    constructor
    · rintro ⟨g1, g2⟩
      cases h1 : w.iface.dev_attr.have_atomic_hca
      · cases h2 : w.iface.dev_attr.have_atomic_glob
        · cases h3 : w.iface.dev_attr.have_atomic_hca_reply_be
          · exact ⟨rfl, rfl, rfl⟩
          · rw [(hbe1 h1 h2 h3).1] at g1
            cases g1
        · rw [(hbe0 (Or.inr h2)).1] at g1
          cases g1
      · rw [(hbe0 (Or.inl h1)).1] at g1
        cases g1
    · rintro ⟨h1, h2, h3⟩
      obtain ⟨g1, g2⟩ := hnone h1 h2 h3
      rw [g1, g2]
      exact hfresh

/-- C10, applied: a device that reports only HCA-reply-big-endian atomics; the
constructor primes a counter of 2 and succeeds, the byte-swapped pair of
handlers is assigned, and the query joins the three 64-bit flags. -/
theorem atomic_handlers_match_query_witness :
    (((example_world_on (example_dev false false true) 2 4).iface.atomic32_handler = none ∧
        (example_world_on (example_dev false false true) 2 4).iface.atomic64_handler = none) ∧
      uct_rc_verbs_iface_init (example_env 100 0 no_wc no_wc) 128 3
          (example_world_on (example_dev false false true) 2 4) =
        some (Outcome.ret ucs_status_t.UCS_OK
          { iface :=
              { example_iface 0 4 [] with
                  dev_attr := example_dev false false true,
                  max_inline := 128,
                  short_desc_size := 128,
                  atomic32_handler := some atomic_handler.uct_rc_ep_atomic_handler_32_be1,
                  atomic64_handler := some atomic_handler.uct_rc_ep_atomic_handler_64_be1 },
            trace := [Event.uct_rc_iface_qp_create ucs_status_t.UCS_OK 128,
                      Event.ibv_destroy_qp,
                      Event.uct_iface_mpool_init ucs_status_t.UCS_OK,
                      Event.uct_ib_iface_prepare_rx_wrs 2 2,
                      Event.ibv_post_srq_recv 2 0] })) ∧
    query_atomic_flags (example_dev false false true) =
      {uct_iface_flag.ATOMIC_ADD64, uct_iface_flag.ATOMIC_FADD64,
        uct_iface_flag.ATOMIC_CSWAP64} ∧
    ((query_atomic_flags (example_dev false false true) = ∅) ↔
      ((example_dev false false true).have_atomic_hca = false ∧
        (example_dev false false true).have_atomic_glob = false ∧
        (example_dev false false true).have_atomic_hca_reply_be = false)) := by
  have hrun : uct_rc_verbs_iface_init (example_env 100 0 no_wc no_wc) 128 3
      (example_world_on (example_dev false false true) 2 4) =
      some (Outcome.ret ucs_status_t.UCS_OK
        { iface :=
            { example_iface 0 4 [] with
                dev_attr := example_dev false false true,
                max_inline := 128,
                short_desc_size := 128,
                atomic32_handler := some atomic_handler.uct_rc_ep_atomic_handler_32_be1,
                atomic64_handler := some atomic_handler.uct_rc_ep_atomic_handler_64_be1 },
          trace := [Event.uct_rc_iface_qp_create ucs_status_t.UCS_OK 128,
                    Event.ibv_destroy_qp,
                    Event.uct_iface_mpool_init ucs_status_t.UCS_OK,
                    Event.uct_ib_iface_prepare_rx_wrs 2 2,
                    Event.ibv_post_srq_recv 2 0] }) := by decide
  have h := atomic_handlers_match_query (example_env 100 0 no_wc no_wc) 128 3
    (example_world_on (example_dev false false true) 2 4) _
    { cap_flags := ∅, put_max_short := 0, put_max_bcopy := 0, put_max_zcopy := 0,
      get_max_bcopy := 0, get_max_zcopy := 0, am_max_short := 0, am_max_bcopy := 0,
      am_max_zcopy := 0, am_max_hdr := 0 }
    ⟨rfl, rfl⟩ hrun
  exact ⟨⟨⟨rfl, rfl⟩, hrun⟩, by decide, h.2.2.2.2.2⟩

end RcVerbs
